import Mathlib

/-!
Shallow embedding of the chat backend (FastAPI + LangGraph repository):
message/conversation domain model (`app/models/message.py`), API contract
validation (`app/models/chat.py`), the mock provider (`app/chat/ai_models.py`),
the provider adapters' aggregate path (`app/chat/ai_providers.py`), the
conversation turn engine (`app/chat/workflow.py`) and the history routes
(`app/routes/chat.py`).

Modelling conventions:
* Python strings are Lean `String`s; `str.strip()` is `pyStrip` over the
  common whitespace characters (exotic Unicode spaces are not used anywhere
  in the repository's data).
* `datetime` values are `DT` records (naive or with a UTC-offset in
  minutes); `isoformat`/`fromisoformat` are implemented over `List Char`
  for the grammar the repository produces and parses.
* External effects (uuid generation, the wall clock, the provider's
  network stream) are explicit parameters of the modelled operations.
* Float-valued metadata entries (processing_time and similar) are omitted
  from the modelled StreamChunk metadata: no claim mentions their values.
-/

/-- Python `str.strip` whitespace test for the characters that occur in
this repository (space, tab, newline, carriage return, vertical tab,
form feed). -/
def isPySpace (c : Char) : Bool :=
  c = ' ' || c = '\t' || c = '\n' || c = '\r' || c = '\x0b' || c = '\x0c'

/-- Remove trailing whitespace from a character list. -/
def dropTrailing (l : List Char) : List Char :=
  (l.reverse.dropWhile isPySpace).reverse

/-- Python `str.strip()` on a character list. -/
def pyStripL (l : List Char) : List Char :=
  dropTrailing (l.dropWhile isPySpace)

/-- Python `str.strip()`. -/
def pyStrip (s : String) : String :=
  String.mk (pyStripL s.data)

/-- Python `str.lower()` (ASCII case folding; the repository only lowers
ASCII tokens and Chinese text, which `Char.toLower` leaves unchanged). -/
def pyLower (s : String) : String :=
  String.mk (s.data.map Char.toLower)

/-- Does `p` occur as a leading segment of `l`? -/
def leadsList : List Char → List Char → Bool
  | [], _ => true
  | _ :: _, [] => false
  | a :: p, b :: l => a == b && leadsList p l

/-- Python `pat in s` (contiguous substring occurrence) on lists. -/
def hasSubList (l pat : List Char) : Bool :=
  match l with
  | [] => pat.isEmpty
  | _ :: rest => leadsList pat l || hasSubList rest pat

/-- Python `pat in s` on strings. -/
def containsStr (s pat : String) : Bool :=
  hasSubList s.data pat.data

/-- Python `", ".join(errs)`. -/
def joinComma (errs : List String) : String :=
  String.intercalate ", " errs

/-- A `datetime` value: calendar fields plus an optional UTC offset in
minutes (`none` = naive, as produced by `datetime.utcnow()`). -/
structure DT where
  year : Nat
  month : Nat
  day : Nat
  hour : Nat
  minute : Nat
  second : Nat
  micro : Nat
  tz : Option Int
deriving DecidableEq

/-- Encode the comparable fields of a `DT` as a single natural number;
field-lexicographic comparison of in-range datetimes agrees with
comparison of these keys. -/
def DT.key (t : DT) : Nat :=
  (((((t.year * 13 + t.month) * 32 + t.day) * 25 + t.hour) * 61 +
      t.minute) * 62 + t.second) * 1000000 + t.micro

/-- Python `<=` on (naive) datetimes, via the encoded key. -/
def DT.le (a b : DT) : Bool :=
  decide (a.key ≤ b.key)

/-- Python `<` on (naive) datetimes, via the encoded key. -/
def DT.lt (a b : DT) : Bool :=
  decide (a.key < b.key)

/-- Calendar validity of a `DT` (what `datetime` can actually hold). -/
def DT.valid (t : DT) : Bool :=
  1 ≤ t.year && t.year ≤ 9999 && 1 ≤ t.month && t.month ≤ 12 &&
  1 ≤ t.day && t.day ≤ 31 && t.hour ≤ 23 && t.minute ≤ 59 &&
  t.second ≤ 59 && t.micro ≤ 999999 &&
  (match t.tz with
   | none => true
   | some off => off.natAbs ≤ 1439)

/-- The decimal digit character for `n < 10`. -/
def digitChar (n : Nat) : Char :=
  Char.ofNat (48 + n)

/-- Two-digit zero-padded rendering. -/
def pad2 (n : Nat) : List Char :=
  [digitChar (n / 10), digitChar (n % 10)]

/-- Four-digit zero-padded rendering. -/
def pad4 (n : Nat) : List Char :=
  [digitChar (n / 1000), digitChar (n / 100 % 10),
   digitChar (n / 10 % 10), digitChar (n % 10)]

/-- Six-digit zero-padded rendering. -/
def pad6 (n : Nat) : List Char :=
  [digitChar (n / 100000), digitChar (n / 10000 % 10),
   digitChar (n / 1000 % 10), digitChar (n / 100 % 10),
   digitChar (n / 10 % 10), digitChar (n % 10)]

/-- `isoformat`'s fractional-second part: omitted when microsecond is 0. -/
def fracChars (n : Nat) : List Char :=
  if n = 0 then [] else '.' :: pad6 n

/-- `isoformat`'s UTC-offset suffix (`+HH:MM` / `-HH:MM`), empty for
naive datetimes. -/
def tzChars : Option Int → List Char
  | none => []
  | some off =>
      (if off < 0 then '-' else '+') ::
        (pad2 (off.natAbs / 60) ++ ':' :: pad2 (off.natAbs % 60))

/-- `datetime.isoformat()` as a character list. -/
def isoChars (t : DT) : List Char :=
  pad4 t.year ++ '-' :: (pad2 t.month ++ '-' :: (pad2 t.day ++
    'T' :: (pad2 t.hour ++ ':' :: (pad2 t.minute ++ ':' :: (pad2 t.second ++
      (fracChars t.micro ++ tzChars t.tz))))))

/-- `datetime.isoformat()`. -/
def DT.iso (t : DT) : String :=
  String.mk (isoChars t)

/-- Read one decimal digit character. -/
def readDigit (c : Char) : Option Nat :=
  if 48 ≤ c.toNat && c.toNat ≤ 57 then some (c.toNat - 48) else none

/-- Read exactly two digits. -/
def read2 : List Char → Option (Nat × List Char)
  | a :: b :: rest =>
      match readDigit a, readDigit b with
      | some x, some y => some (x * 10 + y, rest)
      | _, _ => none
  | _ => none

/-- Read exactly four digits. -/
def read4 : List Char → Option (Nat × List Char)
  | a :: b :: c :: d :: rest =>
      match readDigit a, readDigit b, readDigit c, readDigit d with
      | some w, some x, some y, some z =>
          some (((w * 10 + x) * 10 + y) * 10 + z, rest)
      | _, _, _, _ => none
  | _ => none

/-- Read exactly six digits. -/
def read6 : List Char → Option (Nat × List Char)
  | a :: b :: c :: d :: e :: f :: rest =>
      match readDigit a, readDigit b, readDigit c, readDigit d,
            readDigit e, readDigit f with
      | some u, some v, some w, some x, some y, some z =>
          some (((((u * 10 + v) * 10 + w) * 10 + x) * 10 + y) * 10 + z, rest)
      | _, _, _, _, _, _ => none
  | _ => none

/-- Expect a fixed character. -/
def expectCh (c : Char) : List Char → Option (List Char)
  | x :: r => if x = c then some r else none
  | [] => none

/-- Parse `fromisoformat`'s trailing UTC offset (must end the string). -/
def parseTzChars : List Char → Option (Option Int)
  | [] => some none
  | c :: r =>
      if c = '+' then do
        let (h, r2) ← read2 r
        let r3 ← expectCh ':' r2
        let (m, r4) ← read2 r3
        if r4 = [] then pure (some (Int.ofNat (h * 60 + m))) else none
      else if c = '-' then do
        let (h, r2) ← read2 r
        let r3 ← expectCh ':' r2
        let (m, r4) ← read2 r3
        if r4 = [] then pure (some (-(Int.ofNat (h * 60 + m)))) else none
      else none

/-- Read the optional fractional-second component (6 digits after a
dot), defaulting to 0 microseconds. -/
def readFrac : List Char → Option (Nat × List Char)
  | '.' :: rest => read6 rest
  | l => some (0, l)

/-- `datetime.fromisoformat` for the grammar this repository produces:
`YYYY-MM-DDTHH:MM:SS[.ffffff][+HH:MM]`. -/
def parseDTChars (l : List Char) : Option DT := do
  let (y, r1) ← read4 l
  let r2 ← expectCh '-' r1
  let (mo, r3) ← read2 r2
  let r4 ← expectCh '-' r3
  let (d, r5) ← read2 r4
  let r6 ← expectCh 'T' r5
  let (h, r7) ← read2 r6
  let r8 ← expectCh ':' r7
  let (mi, r9) ← read2 r8
  let r10 ← expectCh ':' r9
  let (s, r11) ← read2 r10
  let (us, r12) ← readFrac r11
  let tz ← parseTzChars r12
  pure (DT.mk y mo d h mi s us tz)

/-- `datetime.fromisoformat` on strings. -/
def parseDT (s : String) : Option DT :=
  parseDTChars s.data

/-- Python `s.replace("Z", "+00:00")` (applied by `from_dict` before
parsing timestamps). -/
def replaceZChars (l : List Char) : List Char :=
  l.flatMap (fun c => if c = 'Z' then ['+', '0', '0', ':', '0', '0'] else [c])

/-- Python `s.replace("Z", "+00:00")` on strings. -/
def replaceZ (s : String) : String :=
  String.mk (replaceZChars s.data)

/-- `MessageType` enumeration (`message.py`). -/
inductive MessageType where
  | user
  | ai
  | system
deriving DecidableEq

/-- The wire value of a `MessageType` (`type.value`). -/
def MessageType.value : MessageType → String
  | .user => "user"
  | .ai => "ai"
  | .system => "system"

/-- Coerce a wire string back to a `MessageType` (pydantic str-enum
coercion on `from_dict` construction). -/
def parseMessageType (s : String) : Option MessageType :=
  if s = "user" then some .user
  else if s = "ai" then some .ai
  else if s = "system" then some .system
  else none

/-- A `Message` record (`message.py`).  The free-form metadata map is
omitted: no claim refers to message metadata values. -/
structure Msg where
  id : String
  content : String
  type : MessageType
  timestamp : DT
  conversation_id : String
deriving DecidableEq

/-- `Message` content validation: pydantic's `min_length=1` /
`max_length=10000` field constraints run on the raw value, then the
`validate_content` validator rejects whitespace-only content and stores
the stripped value. -/
def validateContent (raw : String) : Except String String :=
  if raw.length < 1 then Except.error "ensure this value has at least 1 characters"
  else if raw.length > 10000 then Except.error "ensure this value has at most 10000 characters"
  else if pyStrip raw = "" then Except.error "Message content cannot be empty or whitespace only"
  else Except.ok (pyStrip raw)

/-- Construct a `Message` (validation included); `newId` and `now` stand
for the generated uuid and `datetime.utcnow()`. -/
def mkMsg (newId raw : String) (mtype : MessageType) (now : DT)
    (cid : String) : Except String Msg :=
  match validateContent raw with
  | Except.error e => Except.error e
  | Except.ok c => Except.ok (Msg.mk newId c mtype now cid)

/-- A `Conversation` record (`message.py`); free-form metadata omitted. -/
structure Conv where
  id : String
  messages : List Msg
  created_at : DT
  updated_at : DT
deriving DecidableEq

/-- `Conversation.add_message`: the `Message` is constructed (and
validated) first; only on success is it appended and `updated_at`
refreshed.  A validation failure therefore leaves the conversation
exactly as it was (the caller keeps the unchanged `Conv`). -/
def Conv.addMessage (c : Conv) (raw : String) (mtype : MessageType)
    (newId : String) (now : DT) : Except String (Conv × Msg) :=
  match mkMsg newId raw mtype now c.id with
  | Except.error e => Except.error e
  | Except.ok m =>
      Except.ok (Conv.mk c.id (c.messages ++ [m]) c.created_at now, m)

/-- Stable descending insertion: `m` (a later element of the original
list) is placed after every element with a timestamp `>` or `=` its own,
matching Python's stable `sorted(..., reverse=True)`. -/
def insDesc (m : Msg) : List Msg → List Msg
  | [] => [m]
  | y :: ys =>
      if DT.lt m.timestamp y.timestamp then y :: insDesc m ys
      else m :: y :: ys

/-- `sorted(self.messages, key=lambda x: x.timestamp, reverse=True)`. -/
def sortDesc (l : List Msg) : List Msg :=
  l.foldr insDesc []

/-- `Conversation.get_recent_messages(limit=10)`. -/
def Conv.getRecentMessages (c : Conv) (limit : Nat := 10) : List Msg :=
  (sortDesc c.messages).take limit

/-- `Conversation.get_messages_by_type`. -/
def Conv.getMessagesByType (c : Conv) (mtype : MessageType) : List Msg :=
  c.messages.filter (fun m => m.type == mtype)

/-- The dictionary produced by `Message.to_dict` (string-keyed map with
the fields the claims speak about; timestamps already rendered). -/
structure MsgDict where
  id : String
  content : String
  type_s : String
  ts_s : String
  conversation_id : String
deriving DecidableEq

/-- `Message.to_dict`. -/
def Msg.toDict (m : Msg) : MsgDict :=
  MsgDict.mk m.id m.content m.type.value m.timestamp.iso m.conversation_id

/-- `Message.from_dict`: replace a literal `Z` offset marker, parse the
timestamp, then construct the model (running content validation and the
str-enum coercion again). -/
def Msg.fromDict (d : MsgDict) : Option Msg :=
  match parseDT (replaceZ d.ts_s) with
  | none => none
  | some ts =>
      match parseMessageType d.type_s with
      | none => none
      | some mtype =>
          match validateContent d.content with
          | Except.error _ => none
          | Except.ok c => some (Msg.mk d.id c mtype ts d.conversation_id)

/-- The dictionary produced by `Conversation.to_dict`. -/
structure ConvDict where
  id : String
  messages : List MsgDict
  created_s : String
  updated_s : String
deriving DecidableEq

/-- `Conversation.to_dict`. -/
def Conv.toDict (c : Conv) : ConvDict :=
  ConvDict.mk c.id (c.messages.map Msg.toDict) c.created_at.iso c.updated_at.iso

/-- Convert the serialized message list back (the Python list
comprehension `[Message.from_dict(msg) for msg in data["messages"]]`:
the first failure aborts the whole conversion). -/
def msgsFromDicts : List MsgDict → Option (List Msg)
  | [] => some []
  | d :: rest =>
      match Msg.fromDict d, msgsFromDicts rest with
      | some m, some ms => some (m :: ms)
      | _, _ => none

/-- `Conversation.from_dict`. -/
def Conv.fromDict (d : ConvDict) : Option Conv :=
  match parseDT (replaceZ d.created_s), parseDT (replaceZ d.updated_s) with
  | some ca, some ua =>
      match msgsFromDicts d.messages with
      | none => none
      | some ms => some (Conv.mk d.id ms ca ua)
  | _, _ => none

/-- `ChatRequest.message` validation (`chat.py`): `min_length=1`,
`max_length=1000`, then the `validate_message` validator strips and
rejects whitespace-only input. -/
def validateChatMessage (raw : String) : Except String String :=
  if raw.length < 1 then Except.error "String should have at least 1 character"
  else if raw.length > 1000 then Except.error "String should have at most 1000 characters"
  else if pyStrip raw = "" then Except.error "Message cannot be empty or whitespace only"
  else Except.ok (pyStrip raw)

/-- The five canned reply templates of `MockAIModel`. -/
def mockResponses : List String :=
  ["这是一个模拟的AI响应，用于测试对话流程。",
   "我理解您的问题，这里是一个模拟回答。",
   "作为一个模拟AI，我可以提供基本的回应功能。",
   "您的输入已被记录，这是一个预设的回复。",
   "这是测试环境中的自动回复，实际AI将提供更智能的回答。"]

/-- `MockAIModel.generate_response` (`ai_models.py`): history is the
list of message contents; only the last entry is consulted. -/
def mockGenerateResponse (history : List String) : String :=
  match history.getLast? with
  | none => mockResponses.getD 0 ""
  | some content =>
      let base := mockResponses.getD (content.length % mockResponses.length) ""
      let withGreeting :=
        if (["你好", "hello", "hi", "嗨"].any
              (fun g => containsStr (pyLower content) g)) then
          "你好！很高兴见到你。" ++ base
        else base
      if containsStr content "?" || containsStr content "？" then
        "关于您的问题，" ++ withGreeting
      else withGreeting

/-- Outcome of one underlying chat-completion call (`self.llm.ainvoke`)
together with the error strings the attached `RetryHandler` callback
accumulated during that call (after the `reset()` at the start of the
adapter method). -/
inductive LLMResult where
  | ok (text : String) (errsLogged : List String)
  | raises (e : String) (errsLogged : List String)
deriving DecidableEq

/-- The retry handler's mutable error list (`RetryHandler.errors`). -/
structure RetryState where
  errors : List String
deriving DecidableEq

/-- Shared aggregate-path shape of the three adapters'
`generate_response`: reset the retry handler, call the model inside a
`try`, and on any failure return (not raise) an apology that embeds the
accumulated retry errors when there are any, else a generic message. -/
def adapterAggregate (detailed generic : String) (r : LLMResult) :
    String × RetryState :=
  match r with
  | LLMResult.ok t errs => (t, RetryState.mk errs)
  | LLMResult.raises _ errs =>
      (if errs.isEmpty then generic else detailed ++ joinComma errs,
       RetryState.mk errs)

/-- `OpenAIModel.generate_response` failure strings (`ai_providers.py`).
The first component of the result is the returned text, the second the
retry handler state after the call; `prior` is the handler state before
the call (discarded by `reset()`). -/
def openaiGenerateResponse (_prior : RetryState) (r : LLMResult) :
    String × RetryState :=
  adapterAggregate "抱歉，AI模型暂时无法响应。错误详情: "
    "抱歉，AI模型暂时无法响应。请稍后再试。" r

/-- `OllamaModel.generate_response`. -/
def ollamaGenerateResponse (_prior : RetryState) (r : LLMResult) :
    String × RetryState :=
  adapterAggregate "抱歉，本地AI模型暂时无法响应。错误详情: "
    "抱歉，本地AI模型暂时无法响应。请确保Ollama服务正在运行。" r

/-- `MoonshotModel.generate_response`. -/
def moonshotGenerateResponse (_prior : RetryState) (r : LLMResult) :
    String × RetryState :=
  adapterAggregate "抱歉，Moonshot AI模型暂时无法响应。错误详情: "
    "抱歉，Moonshot AI模型暂时无法响应。请稍后再试。" r

/-- A metadata value in a StreamChunk metadata map. -/
inductive MVal where
  | s (v : String)
  | n (v : Nat)
  | b (v : Bool)
deriving DecidableEq

/-- A StreamChunk (`chat.py`); metadata is a string-keyed map restricted
to the non-float entries the code writes. -/
structure Chunk where
  type : String
  content : String
  conversation_id : String
  metadata : List (String × MVal)
deriving DecidableEq

/-- Look up a metadata key. -/
def Chunk.meta (ch : Chunk) (k : String) : Option MVal :=
  (ch.metadata.find? (fun p => p.1 == k)).map (fun p => p.2)

/-- The `start` event (workflow.py step 1 of the streaming path). -/
def startChunk (cid : String) : Chunk :=
  Chunk.mk "start" "" cid [("status", MVal.s "processing")]

/-- An input-validation `error` event. -/
def inputValidationChunk (cid detail : String) : Chunk :=
  Chunk.mk "error" ("输入验证错误: " ++ detail) cid
    [("error_type", MVal.s "ValidationError"),
     ("error_category", MVal.s "input_validation")]

/-- The `error` event produced when the per-conversation streaming guard
trips: the `ValueError` raised by `_conversation_context.__aenter__`
propagates past the inner handlers to the outermost `except Exception`
of `process_message_stream`, which emits the generic unexpected-error
chunk. -/
def unexpectedErrorChunk (cid : String) : Chunk :=
  Chunk.mk "error" "系统发生未预期错误，请重试或联系技术支持" cid
    [("error_type", MVal.s "ValueError"),
     ("error_category", MVal.s "unexpected_error")]

/-- The conversation-management `error` event (ValueError while adding
the user message or preparing context inside the guard). -/
def convMgmtChunk (cid : String) : Chunk :=
  Chunk.mk "error" "会话状态管理出现问题，请重新开始对话" cid
    [("error_type", MVal.s "ValueError"),
     ("error_category", MVal.s "conversation_management")]

/-- A `chunk` event carrying one accumulated fragment. -/
def chunkEvent (cid content : String) (idx len : Nat) : Chunk :=
  Chunk.mk "chunk" content cid
    [("chunk_index", MVal.n idx), ("response_length", MVal.n len)]

/-- The empty-response `error` event (provider stream produced no
content). -/
def emptyResponseChunk (cid : String) : Chunk :=
  Chunk.mk "error" "AI模型未能生成响应，请重试" cid
    [("error_type", MVal.s "EmptyResponseError"),
     ("error_category", MVal.s "ai_model_response")]

/-- The non-fatal `warning` event emitted when saving the accumulated
response to the conversation fails. -/
def saveWarningChunk (cid : String) : Chunk :=
  Chunk.mk "warning" "" cid
    [("warning_type", MVal.s "state_save_failed")]

/-- The terminal `end` event. -/
def endChunk (cid : String) (totalChunks fullLen : Nat) : Chunk :=
  Chunk.mk "end" "" cid
    [("total_chunks", MVal.n totalChunks),
     ("full_response_length", MVal.n fullLen),
     ("status", MVal.s "completed"),
     ("conversation_updated", MVal.b true)]

/-- A provider-side failure raised by `generate_response_stream`,
carrying the exception's text. -/
inductive StreamErr where
  | timeout (msg : String)
  | conn (msg : String)
  | val (msg : String)
  | other (msg : String)
deriving DecidableEq

/-- Classification of a provider failure into one terminal `error`
event (workflow.py, the except-chain around the streaming call). -/
def providerErrorChunk (cid : String) : StreamErr → Chunk
  | StreamErr.timeout _ =>
      Chunk.mk "error" "AI响应超时，请稍后重试" cid
        [("error_type", MVal.s "TimeoutError"),
         ("error_category", MVal.s "ai_model_timeout")]
  | StreamErr.conn _ =>
      Chunk.mk "error" "AI服务连接失败，请检查网络连接后重试" cid
        [("error_type", MVal.s "ConnectionError"),
         ("error_category", MVal.s "network_error")]
  | StreamErr.val e =>
      let low := pyLower e
      if containsStr low "api_key" || containsStr low "unauthorized" ||
          containsStr low "authentication" then
        Chunk.mk "error" "AI服务认证失败，请检查API密钥配置" cid
          [("error_type", MVal.s "ValueError"),
           ("error_category", MVal.s "authentication_error")]
      else if containsStr low "model" && containsStr low "not found" then
        Chunk.mk "error" "AI模型不可用，请联系管理员" cid
          [("error_type", MVal.s "ValueError"),
           ("error_category", MVal.s "model_error")]
      else
        Chunk.mk "error" "AI服务参数错误，请重试" cid
          [("error_type", MVal.s "ValueError"),
           ("error_category", MVal.s "parameter_error")]
  | StreamErr.other e =>
      let low := pyLower e
      if containsStr low "rate_limit" || containsStr low "quota" then
        Chunk.mk "error" "AI服务请求频率过高，请稍后重试" cid
          [("error_type", MVal.s "Exception"),
           ("error_category", MVal.s "rate_limit_error")]
      else
        Chunk.mk "error" "AI服务暂时不可用，请稍后重试" cid
          [("error_type", MVal.s "Exception"),
           ("error_category", MVal.s "ai_service_error")]

/-- A provider-format (langchain) history entry; the context builders
convert USER and AI messages only, silently dropping SYSTEM ones. -/
inductive LC where
  | human (content : String)
  | ai (content : String)
deriving DecidableEq

/-- Convert one stored message for the provider-format context. -/
def toLC (m : Msg) : Option LC :=
  match m.type with
  | MessageType.user => some (LC.human m.content)
  | MessageType.ai => some (LC.ai m.content)
  | MessageType.system => none

/-- The engine's shared state (`ChatWorkflow`): the conversation map
(insertion-ordered, like a Python dict) and the set of conversation ids
currently holding the streaming guard (`_active_streams`). -/
structure EngineState where
  conversations : List (String × Conv)
  activeStreams : List String
deriving DecidableEq

/-- The freshly constructed engine (empty store, no active streams). -/
def EngineState.empty : EngineState :=
  EngineState.mk [] []

/-- Dictionary lookup `self.conversations.get(conversation_id)`. -/
def EngineState.getConv (st : EngineState) (cid : String) : Option Conv :=
  (st.conversations.find? (fun p => p.1 == cid)).map (fun p => p.2)

/-- Dictionary write `self.conversations[conversation_id] = c`
(update in place, else append preserving insertion order). -/
def EngineState.setConv (st : EngineState) (cid : String) (c : Conv) :
    EngineState :=
  if (st.conversations.find? (fun p => p.1 == cid)).isSome then
    EngineState.mk
      (st.conversations.map (fun p => if p.1 == cid then (cid, c) else p))
      st.activeStreams
  else
    EngineState.mk (st.conversations ++ [(cid, c)]) st.activeStreams

/-- Create the conversation if it does not exist
(`Conversation(id=conversation_id)` with both timestamps `now`) and
return it together with the updated state. -/
def EngineState.ensureConv (st : EngineState) (cid : String) (now : DT) :
    EngineState × Conv :=
  match st.getConv cid with
  | some c => (st, c)
  | none =>
      let c := Conv.mk cid [] now now
      (st.setConv cid c, c)

/-- `ChatWorkflow._safe_add_message`: the conversation is created first
if absent (and remains in the map even when the subsequent
`add_message` raises). -/
def EngineState.safeAddMessage (st : EngineState) (cid raw : String)
    (mtype : MessageType) (newId : String) (now : DT) :
    EngineState × Except String Msg :=
  let (st1, c) := st.ensureConv cid now
  match c.addMessage raw mtype newId now with
  | Except.error e => (st1, Except.error e)
  | Except.ok (c2, m) => (st1.setConv cid c2, Except.ok m)

/-- Result of the state-preparation phase of the direct streaming path:
the events emitted so far, the engine state after the streaming guard is
released, and — when preparation succeeded — the provider-format
context about to be sent. -/
structure PrepOut where
  chunks : List Chunk
  state : EngineState
  ctx : Option (List LC)
deriving DecidableEq

/-- `process_message_stream` up to (and including) the exit of the
`async with _conversation_context(...)` block: start event, input
validation, streaming-guard acquisition, user-message append, the
1000-message trim, provider-context construction, and the guard's
release.  The guard is held only inside this phase; in every returned
state the conversation id is no longer in `activeStreams`. -/
def streamPrep (st : EngineState) (cid msg : String) (userId : String)
    (now : DT) : PrepOut :=
  let start := startChunk cid
  if msg = "" || pyStrip msg = "" then
    PrepOut.mk [start, inputValidationChunk cid "用户输入不能为空"] st none
  else if msg.length > 10000 then
    PrepOut.mk [start, inputValidationChunk cid "用户输入过长，请缩短您的消息"] st none
  else if st.activeStreams.contains cid then
    PrepOut.mk [start, unexpectedErrorChunk cid] st none
  else
    let (st1, c) := st.ensureConv cid now
    match c.addMessage msg MessageType.user userId now with
    | Except.error _ =>
        PrepOut.mk [start, convMgmtChunk cid] st1 none
    | Except.ok (c2, _) =>
        let c3 :=
          if c2.messages.length > 1000 then
            Conv.mk c2.id (c2.messages.drop (c2.messages.length - 500))
              c2.created_at c2.updated_at
          else c2
        let st2 := st1.setConv cid c3
        let ctx := (c3.getRecentMessages 10).filterMap toLC
        if ctx = [] then PrepOut.mk [start, convMgmtChunk cid] st2 none
        else PrepOut.mk [start] st2 (some ctx)

/-- The `chunk` events produced while consuming the provider stream:
each non-empty fragment is accumulated and emitted with metadata
`chunk_index` / `response_length`; empty fragments are skipped. -/
def chunkEventsAux (cid : String) (fs : List String) (full : String)
    (idx : Nat) : List Chunk :=
  match fs with
  | [] => []
  | f :: rest =>
      if f = "" then chunkEventsAux cid rest full idx
      else
        chunkEvent cid f (idx + 1) (full ++ f).length ::
          chunkEventsAux cid rest (full ++ f) (idx + 1)

/-- The fully accumulated response (`full_response` after the provider
stream is exhausted; string concatenation is associative with identity
`""`, so the right fold equals the code's repeated `+=`). -/
def concatFrags : List String → String
  | [] => ""
  | f :: rest => f ++ concatFrags rest

/-- The provider phase of the direct streaming path (after the guard was
released): stream consumption, empty-response check, provider-error
classification, thread-safe save of the accumulated reply (a failed
save yields a non-fatal warning), and the terminal `end` event.
`fs` is the list of fragments the provider yielded and `err` an
exception terminating the stream after them (`none` = clean end). -/
def streamFinish (st : EngineState) (cid : String) (fs : List String)
    (err : Option StreamErr) (aiId : String) (now2 : DT) :
    List Chunk × EngineState :=
  let events := chunkEventsAux cid fs "" 0
  let full := concatFrags fs
  match err with
  | some e => (events ++ [providerErrorChunk cid e], st)
  | none =>
      if full = "" then (events ++ [emptyResponseChunk cid], st)
      else
        let (st2, res) := st.safeAddMessage cid full MessageType.ai aiId now2
        let saveEvents :=
          match res with
          | Except.ok _ => []
          | Except.error _ => [saveWarningChunk cid]
        (events ++ saveEvents ++
          [endChunk cid events.length full.length], st2)

/-- `ChatWorkflow.process_message_stream` as one single-threaded run:
the emitted StreamChunk sequence, the final engine state, and whether
the provider's `generate_response_stream` was invoked. -/
def processMessageStream (st : EngineState) (cid msg : String)
    (userId aiId : String) (now now2 : DT) (fs : List String)
    (err : Option StreamErr) : List Chunk × EngineState × Bool :=
  match streamPrep st cid msg userId now with
  | PrepOut.mk cs st1 none => (cs, st1, false)
  | PrepOut.mk cs st1 (some _) =>
      let (cs2, st2) := streamFinish st1 cid fs err aiId now2
      (cs ++ cs2, st2, true)

/-- Outcome of the aggregate provider call inside
`_generate_response_node` (which never lets an exception escape: a
failure is replaced by a localized apology embedding the error text). -/
inductive AggOutcome where
  | ok (text : String)
  | fail (e : String)
deriving DecidableEq

/-- `ChatWorkflow.process_message` (the four-node non-streaming
pipeline plus its outer failure boundary): returns the final engine
state and the response text (`ChatResponse.response`).  A failure
anywhere in the pipeline is caught by `process_message` and turned into
a degraded response embedding the error. -/
def processMessage (st : EngineState) (cid msg : String)
    (agg : AggOutcome) (userId aiId : String) (now1 now2 : DT) :
    EngineState × String :=
  if msg = "" || pyStrip msg = "" then
    (st, "抱歉，我在处理您的消息时遇到了问题: User input cannot be empty.")
  else
    let (st1, r1) := st.safeAddMessage cid msg MessageType.user userId now1
    match r1 with
    | Except.error e => (st1, "抱歉，我在处理您的消息时遇到了问题: " ++ e)
    | Except.ok _ =>
        let aiResp :=
          match agg with
          | AggOutcome.ok t => t
          | AggOutcome.fail e => "抱歉，我在处理您的请求时遇到了问题。错误信息: " ++ e
        let (st2, r2) := st1.safeAddMessage cid aiResp MessageType.ai aiId now2
        match r2 with
        | Except.error e => (st2, "抱歉，我在处理您的消息时遇到了问题: " ++ e)
        | Except.ok _ => (st2, aiResp)

/-- `ChatWorkflow.clear_conversation`: refused while the conversation is
actively streaming; true only when the conversation existed. -/
def EngineState.clearConversation (st : EngineState) (cid : String) :
    EngineState × Bool :=
  if st.activeStreams.contains cid then (st, false)
  else if (st.getConv cid).isSome then
    (EngineState.mk (st.conversations.filter (fun p => !(p.1 == cid)))
      st.activeStreams, true)
  else (st, false)

/-- Result of an HTTP route handler: either an error status
(`HTTPException(status_code, detail)`) or a success payload. -/
inductive RouteResult (α : Type) where
  | httpError (status : Nat) (detail : String)
  | ok (payload : α)
deriving DecidableEq

/-- The success payload of `GET /api/chat/history/{conversation_id}`. -/
structure HistoryPayload where
  conversation_id : String
  messages : List MsgDict
  message_count : Nat
  limit : Nat
deriving DecidableEq

/-- `get_conversation_history` (`routes/chat.py`): validates the id and
the limit, then returns the engine's recent messages — an empty list
(HTTP 200), not an error, when the conversation does not exist. -/
def getConversationHistoryRoute (st : EngineState) (cid : String)
    (limit : Nat) : RouteResult HistoryPayload :=
  if cid = "" || pyStrip cid = "" then
    RouteResult.httpError 400 "Conversation ID cannot be empty"
  else if limit < 1 || limit > 100 then
    RouteResult.httpError 400 "Limit must be between 1 and 100"
  else
    let msgs :=
      match st.getConv cid with
      | none => []
      | some c => c.getRecentMessages limit
    RouteResult.ok
      (HistoryPayload.mk cid (msgs.map Msg.toDict) msgs.length limit)

/-- The success payload of `DELETE /api/chat/history/{conversation_id}`. -/
structure ClearPayload where
  status : String
  conversation_id : String
deriving DecidableEq

/-- `clear_conversation` route: 400 on empty id, 404 when the engine
reports the conversation was not cleared (absent or actively
streaming). -/
def clearConversationRoute (st : EngineState) (cid : String) :
    EngineState × RouteResult ClearPayload :=
  if cid = "" || pyStrip cid = "" then
    (st, RouteResult.httpError 400 "Conversation ID cannot be empty")
  else
    let (st2, success) := st.clearConversation cid
    if success then (st2, RouteResult.ok (ClearPayload.mk "success" cid))
    else (st2, RouteResult.httpError 404
      ("Conversation " ++ cid ++ " not found"))

/-! ## Helper lemmas -/

theorem string_length_eq_zero_iff (s : String) : s.length = 0 ↔ s = "" := by
  cases s with
  | mk data =>
      constructor
      · intro h
        have hd : data = [] := List.length_eq_zero.mp h
        rw [hd]
      · intro h
        have hd : data = [] := congrArg String.data h
        rw [hd]
        rfl

theorem validateContent_error_iff (raw : String) :
    (∃ e, validateContent raw = Except.error e) ↔
      (raw = "" ∨ pyStrip raw = "" ∨ 10000 < raw.length) := by
  constructor
  · rintro ⟨e, he⟩
    unfold validateContent at he
    split_ifs at he with h1 h2 h3
    · left
      exact (string_length_eq_zero_iff raw).mp (by omega)
    · right; right; exact h2
    · right; left; exact h3
  · intro h
    unfold validateContent
    split_ifs with h1 h2 h3
    · exact ⟨_, rfl⟩
    · exact ⟨_, rfl⟩
    · exact ⟨_, rfl⟩
    · exfalso
      rcases h with rfl | h | h
      · simp at h1
      · exact h3 h
      · omega

theorem validateContent_ok (raw v : String)
    (h : validateContent raw = Except.ok v) :
    v = pyStrip raw ∧ v ≠ "" ∧ 1 ≤ raw.length ∧ raw.length ≤ 10000 := by
  unfold validateContent at h
  split_ifs at h with h1 h2 h3
  cases h
  exact ⟨rfl, h3, by omega, by omega⟩

theorem validateContent_ok_of (raw : String)
    (hs : pyStrip raw ≠ "") (hl : raw.length ≤ 10000) :
    validateContent raw = Except.ok (pyStrip raw) := by
  have hne : raw ≠ "" := by
    intro h
    subst h
    exact hs rfl
  have hlen : raw.length ≠ 0 := fun h =>
    hne ((string_length_eq_zero_iff raw).mp h)
  unfold validateContent
  split_ifs with h1 h2
  · omega
  · omega
  · rfl

theorem validateChatMessage_error_of (raw : String)
    (h : raw = "" ∨ pyStrip raw = "") :
    ∃ e, validateChatMessage raw = Except.error e := by
  unfold validateChatMessage
  split_ifs with h1 h2 h3
  · exact ⟨_, rfl⟩
  · exact ⟨_, rfl⟩
  · exact ⟨_, rfl⟩
  · exfalso
    rcases h with rfl | h
    · simp at h1
    · exact h3 h

theorem validateChatMessage_ok (raw v : String)
    (h : validateChatMessage raw = Except.ok v) : v = pyStrip raw := by
  unfold validateChatMessage at h
  split_ifs at h
  cases h
  rfl

/-- C5: `Message` construction fails with InvalidInput exactly when its
content is empty, whitespace-only, or longer than 10,000 characters;
on success the stored content is the trimmed input and never empty;
`ChatRequest.message` applies the same trimming and the same
empty/whitespace rejection; the concrete example input
`"  Hello, world!  "` stores exactly `"Hello, world!"` in both models. -/
theorem c5_message_content_validation (raw : String) :
    ((∃ e, validateContent raw = Except.error e) ↔
      (raw = "" ∨ pyStrip raw = "" ∨ 10000 < raw.length)) ∧
    (∀ v, validateContent raw = Except.ok v → v = pyStrip raw ∧ v ≠ "") ∧
    ((raw = "" ∨ pyStrip raw = "") →
      ∃ e, validateChatMessage raw = Except.error e) ∧
    (∀ v, validateChatMessage raw = Except.ok v → v = pyStrip raw) ∧
    validateContent "  Hello, world!  " = Except.ok "Hello, world!" ∧
    validateChatMessage "  Hello, world!  " = Except.ok "Hello, world!" := by
  refine ⟨validateContent_error_iff raw, ?_, validateChatMessage_error_of raw,
    fun v hv => validateChatMessage_ok raw v hv, by rfl, by rfl⟩
  intro v hv
  have h := validateContent_ok raw v hv
  exact ⟨h.1, h.2.1⟩

/-- C5 witness at concrete inputs. -/
theorem c5_message_content_validation_witness :
    (∃ e, validateContent "   " = Except.error e) ∧
    validateContent "  Hello, world!  " = Except.ok "Hello, world!" :=
  ⟨(c5_message_content_validation "   ").1.mpr (Or.inr (Or.inl (by rfl))),
   (c5_message_content_validation "  Hello, world!  ").2.2.2.2.1⟩

/-- C10: `Conversation.add_message` validates the `Message` before
anything is appended: with empty, whitespace-only or over-10,000-character
content it fails and no successor conversation is produced (the caller's
conversation keeps its message list and `updated_at`), while on success
exactly one message — carrying the trimmed content and the owning
conversation's id — is appended and `updated_at` becomes the call time. -/
theorem c10_add_message_atomic (c : Conv) (raw : String)
    (mtype : MessageType) (newId : String) (now : DT) :
    ((raw = "" ∨ pyStrip raw = "" ∨ 10000 < raw.length) →
      ∃ e, c.addMessage raw mtype newId now = Except.error e) ∧
    (∀ c2 m, c.addMessage raw mtype newId now = Except.ok (c2, m) →
      c2.id = c.id ∧ c2.messages = c.messages ++ [m] ∧
      c2.created_at = c.created_at ∧ c2.updated_at = now ∧
      m.content = pyStrip raw ∧ m.content ≠ "" ∧
      m.conversation_id = c.id ∧ m.type = mtype ∧ m.timestamp = now) := by
  constructor
  · intro h
    obtain ⟨e, he⟩ := (validateContent_error_iff raw).mpr h
    exact ⟨e, by unfold Conv.addMessage mkMsg; rw [he]⟩
  · intro c2 m h
    unfold Conv.addMessage mkMsg at h
    cases hv : validateContent raw with
    | error e => rw [hv] at h; cases h
    | ok v =>
        rw [hv] at h
        cases h
        have hok := validateContent_ok raw v hv
        exact ⟨rfl, rfl, rfl, rfl, hok.1, hok.2.1, rfl, rfl, rfl⟩

/-- C10 witness: whitespace-only content is rejected (conversation has
no successor state), and valid content is appended. -/
theorem c10_add_message_atomic_witness :
    (∃ e, (Conv.mk "c0" [] (DT.mk 2024 1 1 0 0 0 0 none)
        (DT.mk 2024 1 1 0 0 0 0 none)).addMessage "   " MessageType.user
        "m1" (DT.mk 2024 1 1 0 0 1 0 none) = Except.error e) := by
  exact (c10_add_message_atomic (Conv.mk "c0" []
    (DT.mk 2024 1 1 0 0 0 0 none) (DT.mk 2024 1 1 0 0 0 0 none)) "   "
    MessageType.user "m1" (DT.mk 2024 1 1 0 0 1 0 none)).1
    (Or.inr (Or.inl (by rfl)))

/-- C6: on all three provider adapters the aggregate `generate_response`
path is total — its whole body sits inside a `try/except Exception` — so
any internal failure is returned as an apology string, embedding the
retry handler's errors accumulated during the call when that list is
non-empty and a generic temporarily-unavailable message otherwise; the
handler state from before the call is discarded by `reset()` and never
influences the result. -/
theorem c6_aggregate_never_raises (prior prior2 : RetryState)
    (r : LLMResult) :
    (∀ t errs, r = LLMResult.ok t errs →
      (openaiGenerateResponse prior r).1 = t ∧
      (ollamaGenerateResponse prior r).1 = t ∧
      (moonshotGenerateResponse prior r).1 = t) ∧
    (∀ e errs, r = LLMResult.raises e errs → errs ≠ [] →
      (openaiGenerateResponse prior r).1 =
        "抱歉，AI模型暂时无法响应。错误详情: " ++ joinComma errs ∧
      (ollamaGenerateResponse prior r).1 =
        "抱歉，本地AI模型暂时无法响应。错误详情: " ++ joinComma errs ∧
      (moonshotGenerateResponse prior r).1 =
        "抱歉，Moonshot AI模型暂时无法响应。错误详情: " ++ joinComma errs) ∧
    (∀ e, r = LLMResult.raises e [] →
      (openaiGenerateResponse prior r).1 =
        "抱歉，AI模型暂时无法响应。请稍后再试。" ∧
      (ollamaGenerateResponse prior r).1 =
        "抱歉，本地AI模型暂时无法响应。请确保Ollama服务正在运行。" ∧
      (moonshotGenerateResponse prior r).1 =
        "抱歉，Moonshot AI模型暂时无法响应。请稍后再试。") ∧
    (openaiGenerateResponse prior r = openaiGenerateResponse prior2 r ∧
     ollamaGenerateResponse prior r = ollamaGenerateResponse prior2 r ∧
     moonshotGenerateResponse prior r = moonshotGenerateResponse prior2 r) := by
  refine ⟨?_, ?_, ?_, ?_⟩
  · rintro t errs rfl
    exact ⟨rfl, rfl, rfl⟩
  · rintro e errs rfl hne
    cases errs with
    | nil => exact absurd rfl hne
    | cons a l => exact ⟨rfl, rfl, rfl⟩
  · rintro e rfl
    exact ⟨rfl, rfl, rfl⟩
  · cases r <;> exact ⟨rfl, rfl, rfl⟩

/-- C6 witness: a failed call with two accumulated retry errors yields
the detailed apology; prior handler state is irrelevant. -/
theorem c6_aggregate_never_raises_witness :
    (openaiGenerateResponse (RetryState.mk ["old"])
      (LLMResult.raises "boom" ["e1", "e2"])).1 =
      "抱歉，AI模型暂时无法响应。错误详情: e1, e2" := by
  have h := (c6_aggregate_never_raises (RetryState.mk ["old"])
    (RetryState.mk []) (LLMResult.raises "boom" ["e1", "e2"])).2.1
    "boom" ["e1", "e2"] rfl (by simp)
  rw [h.1]
  rfl

/-- C7: for a non-empty conversation id the engine has never seen and a
limit in [1,100], the history route answers with a normal success
payload carrying an empty message list and `message_count 0`, while the
delete route on the same id answers HTTP 404 and leaves the engine
state unchanged. -/
theorem c7_history_and_clear_unseen (st : EngineState) (cid : String)
    (limit : Nat) (hcid : pyStrip cid ≠ "") (h1 : 1 ≤ limit)
    (h2 : limit ≤ 100) (habsent : st.getConv cid = none)
    (_hstream : st.activeStreams.contains cid = false) :
    getConversationHistoryRoute st cid limit =
      RouteResult.ok (HistoryPayload.mk cid [] 0 limit) ∧
    (clearConversationRoute st cid).2 =
      RouteResult.httpError 404 ("Conversation " ++ cid ++ " not found") ∧
    (clearConversationRoute st cid).1 = st := by
  have hne : cid ≠ "" := by
    intro h
    apply hcid
    rw [h]
    rfl
  have hl1 : ¬limit < 1 := by omega
  have hl2 : ¬limit > 100 := by omega
  refine ⟨?_, ?_, ?_⟩
  · simp [getConversationHistoryRoute, hne, hcid, hl1, hl2, habsent]
  · simp [clearConversationRoute, EngineState.clearConversation, hne, hcid,
      habsent]
  · simp [clearConversationRoute, EngineState.clearConversation, hne, hcid,
      habsent]

/-- C7 witness at a concrete never-seen conversation id. -/
theorem c7_history_and_clear_unseen_witness :
    getConversationHistoryRoute EngineState.empty "never_seen" 10 =
      RouteResult.ok (HistoryPayload.mk "never_seen" [] 0 10) ∧
    (clearConversationRoute EngineState.empty "never_seen").2 =
      RouteResult.httpError 404 "Conversation never_seen not found" := by
  have h := c7_history_and_clear_unseen EngineState.empty "never_seen" 10
    (by decide) (by omega) (by omega) (by rfl) (by rfl)
  exact ⟨h.1, h.2.1⟩

/-- Restatement of the Mock Provider contract in the spec's wording
(empty history → first template; otherwise template `len(content) mod 5`
of the last message, with a question prefix and a greeting prefix
prepended when their triggers occur), used to compare against the
transcribed implementation `mockGenerateResponse`. -/
def mockResponseSpec (history : List String) : String :=
  match history.getLast? with
  | none => "这是一个模拟的AI响应，用于测试对话流程。"
  | some content =>
      let template := mockResponses.getD (content.length % 5) ""
      let greets :=
        (["你好", "hello", "hi", "嗨"].any
          (fun g => containsStr (pyLower content) g))
      let asks := containsStr content "?" || containsStr content "？"
      (if asks then "关于您的问题，" else "") ++
        ((if greets then "你好！很高兴见到你。" else "") ++ template)

/-- C8: the Mock Provider's `generate_response` is a pure function of
its input history — identical histories yield identical text — and it
realizes exactly the canned-template selection, greeting-prefix and
question-prefix behavior stated by the spec. -/
theorem c8_mock_determinism (history : List String) :
    mockGenerateResponse history = mockResponseSpec history ∧
    (∀ h2, history = h2 →
      mockGenerateResponse history = mockGenerateResponse h2) := by
  constructor
  · unfold mockGenerateResponse mockResponseSpec
    cases history.getLast? with
    | none => rfl
    | some content =>
        have h5 : mockResponses.length = 5 := rfl
        by_cases hg : (["你好", "hello", "hi", "嗨"].any
            (fun g => containsStr (pyLower content) g)) = true
        · by_cases hq : (containsStr content "?" ||
              containsStr content "？") = true
          · simp [hg, hq, h5]
          · simp [hg, hq, h5]
        · by_cases hq : (containsStr content "?" ||
              containsStr content "？") = true
          · simp [hg, hq, h5]
          · simp [hg, hq, h5]
  · rintro h2 rfl
    rfl

/-- C8 witness: a history whose last message both greets and asks. -/
theorem c8_mock_determinism_witness :
    mockGenerateResponse ["hello?"] = mockResponseSpec ["hello?"] ∧
    mockGenerateResponse ["hello?"] =
      "关于您的问题，你好！很高兴见到你。我理解您的问题，这里是一个模拟回答。" := by
  refine ⟨(c8_mock_determinism ["hello?"]).1, ?_⟩
  rw [(c8_mock_determinism ["hello?"]).1]
  rfl

/-- The "at least as recent" relation used by the descending sort. -/
def MsgGE (a b : Msg) : Prop :=
  b.timestamp.key ≤ a.timestamp.key

instance : DecidableRel MsgGE :=
  fun a b => Nat.decLe b.timestamp.key a.timestamp.key

instance : IsTotal Msg MsgGE :=
  ⟨fun a b => (Nat.le_total b.timestamp.key a.timestamp.key).imp id id⟩

instance : IsTrans Msg MsgGE :=
  ⟨fun _ _ _ hab hbc => Nat.le_trans hbc hab⟩

theorem insDesc_eq_orderedInsert (m : Msg) (l : List Msg) :
    insDesc m l = List.orderedInsert MsgGE m l := by
  induction l with
  | nil => rfl
  | cons y ys ih =>
      by_cases h : m.timestamp.key < y.timestamp.key
      · have hge : ¬MsgGE m y := by
          unfold MsgGE
          omega
        simp [insDesc, List.orderedInsert, DT.lt, h, hge, ih]
      · have hge : MsgGE m y := by
          unfold MsgGE
          omega
        simp [insDesc, List.orderedInsert, DT.lt, h, hge]

theorem sortDesc_eq_insertionSort (l : List Msg) :
    sortDesc l = List.insertionSort MsgGE l := by
  induction l with
  | nil => rfl
  | cons y ys ih =>
      show insDesc y (sortDesc ys) = _
      rw [ih, insDesc_eq_orderedInsert]
      rfl

theorem sortDesc_sorted (l : List Msg) : List.Sorted MsgGE (sortDesc l) := by
  rw [sortDesc_eq_insertionSort]
  exact List.sorted_insertionSort MsgGE l

theorem sortDesc_perm (l : List Msg) : (sortDesc l).Perm l := by
  rw [sortDesc_eq_insertionSort]
  exact List.perm_insertionSort MsgGE l

/-- 15 messages `"Message 0"` … `"Message 14"` appended in order with
strictly increasing `utcnow` readings (here: increasing microseconds). -/
def testConv15 : Conv :=
  (List.range 15).foldl
    (fun c i =>
      match c.addMessage ("Message " ++ toString i) MessageType.user
          ("m" ++ toString i) (DT.mk 2024 1 1 0 0 0 i none) with
      | Except.ok p => p.1
      | Except.error _ => c)
    (Conv.mk "conv_test" [] (DT.mk 2024 1 1 0 0 0 0 none)
      (DT.mk 2024 1 1 0 0 0 0 none))

/-- C3: `get_recent_messages(limit)` is the timestamp-descending stable
sort of the conversation's messages truncated to `limit` (10 by
default): the result is descending-sorted, is a prefix of a permutation
of the stored messages, has length `min limit n` — and on the concrete
15-message conversation, `limit=5` yields exactly
`["Message 14" … "Message 10"]`. -/
theorem c3_get_recent_messages (c : Conv) (limit : Nat) :
    c.getRecentMessages limit = (sortDesc c.messages).take limit ∧
    Conv.getRecentMessages c = (sortDesc c.messages).take 10 ∧
    List.Sorted MsgGE (c.getRecentMessages limit) ∧
    (sortDesc c.messages).Perm c.messages ∧
    (c.getRecentMessages limit).length = min limit c.messages.length ∧
    (testConv15.getRecentMessages 5).map (fun m => m.content) =
      ["Message 14", "Message 13", "Message 12", "Message 11",
       "Message 10"] := by
  refine ⟨rfl, rfl, ?_, sortDesc_perm c.messages, ?_, by decide⟩
  · exact (sortDesc_sorted c.messages).sublist
      (List.take_sublist limit (sortDesc c.messages))
  · show ((sortDesc c.messages).take limit).length = _
    rw [List.length_take, (sortDesc_perm c.messages).length_eq]

/-- Conversation well-formedness under map key `k`: the conversation's
id is `k` and every stored message's `conversation_id` is `k`. -/
def Conv.wfB (k : String) (c : Conv) : Bool :=
  (c.id == k) && c.messages.all (fun m => m.conversation_id == k)

/-- Engine-store invariant: every entry of the conversation map is
well-formed under the key it is stored at. -/
def EngineState.wfB (st : EngineState) : Bool :=
  st.conversations.all (fun p => Conv.wfB p.1 p.2)

theorem wfB_characterization (st : EngineState) :
    st.wfB = true ↔
      ∀ p ∈ st.conversations, p.2.id = p.1 ∧
        ∀ m ∈ p.2.messages, m.conversation_id = p.1 := by
  unfold EngineState.wfB Conv.wfB
  rw [List.all_eq_true]
  constructor
  · intro h p hp
    have hp2 := h p hp
    rw [Bool.and_eq_true, List.all_eq_true] at hp2
    refine ⟨by simpa using hp2.1, fun m hm => by simpa using hp2.2 m hm⟩
  · intro h p hp
    rw [Bool.and_eq_true, List.all_eq_true]
    exact ⟨by simpa using (h p hp).1, fun m hm => by simpa using (h p hp).2 m hm⟩

theorem addMessage_wf (k : String) (c : Conv) (raw : String)
    (mtype : MessageType) (nid : String) (now : DT) (c2 : Conv) (m : Msg)
    (hwf : Conv.wfB k c = true)
    (h : c.addMessage raw mtype nid now = Except.ok (c2, m)) :
    Conv.wfB k c2 = true ∧ m.conversation_id = c.id := by
  unfold Conv.addMessage mkMsg at h
  cases hv : validateContent raw with
  | error e => rw [hv] at h; cases h
  | ok v =>
      rw [hv] at h
      cases h
      unfold Conv.wfB at hwf ⊢
      rw [Bool.and_eq_true] at hwf
      rw [Bool.and_eq_true, List.all_append]
      refine ⟨⟨hwf.1, ?_⟩, rfl⟩
      rw [Bool.and_eq_true]
      refine ⟨hwf.2, ?_⟩
      simp
      simpa using hwf.1

theorem getConv_wf (st : EngineState) (cid : String) (c : Conv)
    (hwf : st.wfB = true) (h : st.getConv cid = some c) :
    Conv.wfB cid c = true := by
  unfold EngineState.getConv at h
  cases hf : st.conversations.find? (fun p => p.1 == cid) with
  | none => rw [hf] at h; cases h
  | some p =>
      rw [hf] at h
      cases h
      have hpred := List.find?_some hf
      have hmem : p ∈ st.conversations := List.mem_of_find?_eq_some hf
      have hkey : p.1 = cid := by simpa using hpred
      unfold EngineState.wfB at hwf
      rw [List.all_eq_true] at hwf
      have := hwf p hmem
      rwa [hkey] at this

theorem setConv_wf (st : EngineState) (cid : String) (c : Conv)
    (hwf : st.wfB = true) (hc : Conv.wfB cid c = true) :
    (st.setConv cid c).wfB = true := by
  unfold EngineState.setConv
  unfold EngineState.wfB at hwf ⊢
  rw [List.all_eq_true] at hwf
  split_ifs with h
  · rw [List.all_eq_true]
    intro q hq
    rw [List.mem_map] at hq
    obtain ⟨p, hp, hpq⟩ := hq
    by_cases hk : (p.1 == cid) = true
    · rw [if_pos hk] at hpq
      rw [← hpq]
      exact hc
    · rw [if_neg (by simpa using hk)] at hpq
      rw [← hpq]
      exact hwf p hp
  · rw [List.all_append]
    rw [Bool.and_eq_true, List.all_eq_true, List.all_eq_true]
    exact ⟨fun p hp => hwf p hp, fun p hp => by
      rw [List.mem_singleton] at hp
      cases hp
      exact hc⟩

theorem ensureConv_wf (st : EngineState) (cid : String) (now : DT)
    (hwf : st.wfB = true) :
    (st.ensureConv cid now).1.wfB = true ∧
      Conv.wfB cid (st.ensureConv cid now).2 = true := by
  unfold EngineState.ensureConv
  cases hg : st.getConv cid with
  | some c => exact ⟨hwf, getConv_wf st cid c hwf hg⟩
  | none =>
      have hc : Conv.wfB cid (Conv.mk cid [] now now) = true := by
        unfold Conv.wfB
        simp
      exact ⟨setConv_wf st cid _ hwf hc, hc⟩

theorem safeAddMessage_wf (st : EngineState) (cid raw : String)
    (mtype : MessageType) (nid : String) (now : DT)
    (hwf : st.wfB = true) :
    (st.safeAddMessage cid raw mtype nid now).1.wfB = true := by
  unfold EngineState.safeAddMessage
  have he := ensureConv_wf st cid now hwf
  cases ha : (st.ensureConv cid now).2.addMessage raw mtype nid now with
  | error e => simpa [ha] using he.1
  | ok p =>
      have hm := addMessage_wf cid (st.ensureConv cid now).2 raw mtype nid
        now p.1 p.2 he.2 (by rw [ha])
      simpa [ha] using setConv_wf (st.ensureConv cid now).1 cid p.1 he.1 hm.1

theorem conv_trim_wf (k : String) (c : Conv) (n : Nat)
    (h : Conv.wfB k c = true) :
    Conv.wfB k (Conv.mk c.id (c.messages.drop n) c.created_at c.updated_at) =
      true := by
  unfold Conv.wfB at h ⊢
  rw [Bool.and_eq_true] at h ⊢
  refine ⟨h.1, ?_⟩
  rw [List.all_eq_true] at h ⊢
  exact fun m hm => h.2 m (List.drop_subset n c.messages hm)

theorem streamPrep_wf (st : EngineState) (cid msg uid : String) (now : DT)
    (hwf : st.wfB = true) :
    (streamPrep st cid msg uid now).state.wfB = true := by
  unfold streamPrep
  split_ifs with h1 h2 h3
  · exact hwf
  · exact hwf
  · exact hwf
  · have he := ensureConv_wf st cid now hwf
    rcases hE : st.ensureConv cid now with ⟨st1, c⟩
    rw [hE] at he
    cases ha : c.addMessage msg MessageType.user uid now with
    | error e => simp only [ha]; exact he.1
    | ok p =>
        rcases p with ⟨c2, m⟩
        have hc2 := (addMessage_wf cid c msg MessageType.user uid now c2 m
          he.2 ha).1
        simp only [ha]
        split_ifs <;>
          first
            | exact setConv_wf st1 cid _ he.1 (conv_trim_wf cid c2 _ hc2)
            | exact setConv_wf st1 cid _ he.1 hc2

theorem streamFinish_wf (st : EngineState) (cid : String)
    (fs : List String) (err : Option StreamErr) (aiId : String) (now2 : DT)
    (hwf : st.wfB = true) :
    (streamFinish st cid fs err aiId now2).2.wfB = true := by
  unfold streamFinish
  cases err with
  | some e => exact hwf
  | none =>
      dsimp only
      split_ifs with hfull
      · exact hwf
      · have hs := safeAddMessage_wf st cid (concatFrags fs) MessageType.ai
          aiId now2 hwf
        rcases hS : st.safeAddMessage cid (concatFrags fs) MessageType.ai
            aiId now2 with ⟨st2, res⟩
        rw [hS] at hs
        simp only [hS]
        cases res <;> exact hs

theorem processMessageStream_wf (st : EngineState) (cid msg uid aiId : String)
    (now now2 : DT) (fs : List String) (err : Option StreamErr)
    (hwf : st.wfB = true) :
    (processMessageStream st cid msg uid aiId now now2 fs err).2.1.wfB =
      true := by
  unfold processMessageStream
  have hp := streamPrep_wf st cid msg uid now hwf
  rcases hP : streamPrep st cid msg uid now with ⟨cs, st1, octx⟩
  rw [hP] at hp
  cases octx with
  | none => exact hp
  | some ctx =>
      have hf := streamFinish_wf st1 cid fs err aiId now2 hp
      dsimp only
      rcases hF : streamFinish st1 cid fs err aiId now2 with ⟨cs2, st2⟩
      rw [hF] at hf
      simp only [hF]
      exact hf

theorem processMessage_wf (st : EngineState) (cid msg : String)
    (agg : AggOutcome) (uid aiId : String) (now1 now2 : DT)
    (hwf : st.wfB = true) :
    (processMessage st cid msg agg uid aiId now1 now2).1.wfB = true := by
  unfold processMessage
  split_ifs with h1
  · exact hwf
  · have hs1 := safeAddMessage_wf st cid msg MessageType.user uid now1 hwf
    rcases hA : st.safeAddMessage cid msg MessageType.user uid now1
        with ⟨st1, r1⟩
    rw [hA] at hs1
    simp only [hA]
    cases r1 with
    | error e => exact hs1
    | ok m =>
        cases agg with
        | ok t =>
            have hs2 := safeAddMessage_wf st1 cid t MessageType.ai aiId
              now2 hs1
            rcases hB : st1.safeAddMessage cid t MessageType.ai aiId now2
                with ⟨st2, r2⟩
            rw [hB] at hs2
            simp only [hB]
            cases r2 <;> exact hs2
        | fail e =>
            have hs2 := safeAddMessage_wf st1 cid
              ("抱歉，我在处理您的请求时遇到了问题。错误信息: " ++ e)
              MessageType.ai aiId now2 hs1
            rcases hB : st1.safeAddMessage cid
                ("抱歉，我在处理您的请求时遇到了问题。错误信息: " ++ e)
                MessageType.ai aiId now2 with ⟨st2, r2⟩
            rw [hB] at hs2
            simp only [hB]
            cases r2 <;> exact hs2

/-- C9: the engine-store invariant — every stored conversation's id
equals the map key it is stored under, and every message it holds
carries that conversation id — is preserved by `_safe_add_message`, by
the whole streaming path, and by the non-streaming pipeline; and
`Conversation.add_message` always stamps the new message with the
owning conversation's id. -/
theorem c9_conversation_id_invariant (st : EngineState)
    (cid msg raw uid aiId nid : String) (mtype : MessageType)
    (agg : AggOutcome) (now now2 : DT) (fs : List String)
    (err : Option StreamErr) (c : Conv)
    (hwf : st.wfB = true) :
    (st.wfB = true ↔
      ∀ p ∈ st.conversations, p.2.id = p.1 ∧
        ∀ m ∈ p.2.messages, m.conversation_id = p.1) ∧
    (st.safeAddMessage cid raw mtype nid now).1.wfB = true ∧
    (processMessageStream st cid msg uid aiId now now2 fs err).2.1.wfB =
      true ∧
    (processMessage st cid msg agg uid aiId now now2).1.wfB = true ∧
    (∀ c2 m, c.addMessage raw mtype nid now = Except.ok (c2, m) →
      m.conversation_id = c.id ∧ c2.id = c.id) := by
  refine ⟨wfB_characterization st,
    safeAddMessage_wf st cid raw mtype nid now hwf,
    processMessageStream_wf st cid msg uid aiId now now2 fs err hwf,
    processMessage_wf st cid msg agg uid aiId now now2 hwf, ?_⟩
  intro c2 m h
  unfold Conv.addMessage mkMsg at h
  cases hv : validateContent raw with
  | error e => rw [hv] at h; cases h
  | ok v => rw [hv] at h; cases h; exact ⟨rfl, rfl⟩

/-- C9 witness: the invariant holds after a streaming turn run from the
freshly constructed engine. -/
theorem c9_conversation_id_invariant_witness :
    (processMessageStream EngineState.empty "conv_w" "hello" "u1" "a1"
      (DT.mk 2024 1 1 0 0 0 0 none) (DT.mk 2024 1 1 0 0 1 0 none)
      ["再", "见"] none).2.1.wfB = true :=
  (c9_conversation_id_invariant EngineState.empty "conv_w" "hello" "x"
    "u1" "a1" "n1" MessageType.user (AggOutcome.ok "t")
    (DT.mk 2024 1 1 0 0 0 0 none) (DT.mk 2024 1 1 0 0 1 0 none)
    ["再", "见"] none
    (Conv.mk "c" [] (DT.mk 2024 1 1 0 0 0 0 none)
      (DT.mk 2024 1 1 0 0 0 0 none)) (by rfl)).2.2.1

theorem readDigit_digitChar (d : Nat) (h : d < 10) :
    readDigit (digitChar d) = some d := by
  interval_cases d <;> rfl

theorem read2_pad2 (n : Nat) (h : n < 100) (rest : List Char) :
    read2 (pad2 n ++ rest) = some (n, rest) := by
  have h1 : n / 10 < 10 := by omega
  have h2 : n % 10 < 10 := by omega
  show read2 (digitChar (n / 10) :: digitChar (n % 10) :: rest) = some (n, rest)
  unfold read2
  dsimp only
  rw [readDigit_digitChar _ h1, readDigit_digitChar _ h2]
  dsimp only
  have : n / 10 * 10 + n % 10 = n := by omega
  rw [this]

theorem read4_pad4 (n : Nat) (h : n < 10000) (rest : List Char) :
    read4 (pad4 n ++ rest) = some (n, rest) := by
  have h1 : n / 1000 < 10 := by omega
  have h2 : n / 100 % 10 < 10 := by omega
  have h3 : n / 10 % 10 < 10 := by omega
  have h4 : n % 10 < 10 := by omega
  show read4 (digitChar (n / 1000) :: digitChar (n / 100 % 10) ::
    digitChar (n / 10 % 10) :: digitChar (n % 10) :: rest) = some (n, rest)
  unfold read4
  dsimp only
  rw [readDigit_digitChar _ h1, readDigit_digitChar _ h2,
    readDigit_digitChar _ h3, readDigit_digitChar _ h4]
  dsimp only
  have : ((n / 1000 * 10 + n / 100 % 10) * 10 + n / 10 % 10) * 10 + n % 10 =
      n := by omega
  rw [this]

theorem read6_pad6 (n : Nat) (h : n < 1000000) (rest : List Char) :
    read6 (pad6 n ++ rest) = some (n, rest) := by
  have h1 : n / 100000 < 10 := by omega
  have h2 : n / 10000 % 10 < 10 := by omega
  have h3 : n / 1000 % 10 < 10 := by omega
  have h4 : n / 100 % 10 < 10 := by omega
  have h5 : n / 10 % 10 < 10 := by omega
  have h6 : n % 10 < 10 := by omega
  show read6 (digitChar (n / 100000) :: digitChar (n / 10000 % 10) ::
    digitChar (n / 1000 % 10) :: digitChar (n / 100 % 10) ::
    digitChar (n / 10 % 10) :: digitChar (n % 10) :: rest) = some (n, rest)
  unfold read6
  dsimp only
  rw [readDigit_digitChar _ h1, readDigit_digitChar _ h2,
    readDigit_digitChar _ h3, readDigit_digitChar _ h4,
    readDigit_digitChar _ h5, readDigit_digitChar _ h6]
  dsimp only
  have : ((((n / 100000 * 10 + n / 10000 % 10) * 10 + n / 1000 % 10) * 10 +
      n / 100 % 10) * 10 + n / 10 % 10) * 10 + n % 10 = n := by omega
  rw [this]

theorem expectCh_cons (c : Char) (r : List Char) :
    expectCh c (c :: r) = some r := by
  unfold expectCh
  dsimp only
  rw [if_pos rfl]

theorem readFrac_frac (n : Nat) (h0 : n ≠ 0) (h : n < 1000000)
    (rest : List Char) :
    readFrac (fracChars n ++ rest) = some (n, rest) := by
  unfold fracChars
  rw [if_neg h0]
  show readFrac ('.' :: (pad6 n ++ rest)) = some (n, rest)
  unfold readFrac
  exact read6_pad6 n h rest

theorem readFrac_tzChars (tz : Option Int) :
    readFrac (tzChars tz) = some (0, tzChars tz) := by
  cases tz with
  | none => rfl
  | some off =>
      unfold tzChars
      dsimp only
      by_cases hneg : off < 0
      · rw [if_pos hneg]
        rfl
      · rw [if_neg hneg]
        rfl

theorem parseTz_tzChars (tz : Option Int)
    (h : match tz with
         | none => True
         | some off => off.natAbs ≤ 1439) :
    parseTzChars (tzChars tz) = some tz := by
  cases tz with
  | none => rfl
  | some off =>
      have habs : off.natAbs ≤ 1439 := h
      have hh : off.natAbs / 60 < 100 := by omega
      have hm : off.natAbs % 60 < 100 := by omega
      unfold tzChars
      dsimp only
      by_cases hneg : off < 0
      · rw [if_pos hneg]
        simp only [parseTzChars]
        rw [if_pos trivial]
        rw [read2_pad2 _ hh]
        simp only [Option.bind_eq_bind, Option.some_bind]
        rw [expectCh_cons]
        simp only [Option.bind_eq_bind, Option.some_bind]
        rw [← List.append_nil (pad2 (off.natAbs % 60)), read2_pad2 _ hm]
        simp only [Option.bind_eq_bind, Option.some_bind]
        rw [if_neg (by decide), if_pos trivial]
        have h1 : off.natAbs / 60 * 60 + off.natAbs % 60 = off.natAbs := by
          omega
        rw [h1]
        have h2 : -Int.ofNat off.natAbs = off := by
          rw [Int.ofNat_eq_natCast]
          omega
        rw [h2]
        rfl
      · rw [if_neg hneg]
        simp only [parseTzChars]
        rw [if_pos trivial]
        rw [read2_pad2 _ hh]
        simp only [Option.bind_eq_bind, Option.some_bind]
        rw [expectCh_cons]
        simp only [Option.bind_eq_bind, Option.some_bind]
        rw [← List.append_nil (pad2 (off.natAbs % 60)), read2_pad2 _ hm]
        simp only [Option.bind_eq_bind, Option.some_bind]
        rw [if_pos trivial]
        have h1 : off.natAbs / 60 * 60 + off.natAbs % 60 = off.natAbs := by
          omega
        rw [h1]
        have h2 : Int.ofNat off.natAbs = off := by
          rw [Int.ofNat_eq_natCast]
          omega
        rw [h2]
        rfl

theorem parseDTChars_isoChars (t : DT) (h : t.valid = true) :
    parseDTChars (isoChars t) = some t := by
  unfold DT.valid at h
  simp only [Bool.and_eq_true, decide_eq_true_eq] at h
  obtain ⟨⟨⟨⟨⟨⟨⟨⟨⟨⟨h1, h2⟩, h3⟩, h4⟩, h5⟩, h6⟩, h7⟩, h8⟩, h9⟩, h10⟩, h11⟩ := h
  have htz : (match t.tz with
              | none => True
              | some off => off.natAbs ≤ 1439) := by
    cases hz : t.tz with
    | none => trivial
    | some off =>
        rw [hz] at h11
        simpa using h11
  have hy : t.year < 10000 := by omega
  have hmo : t.month < 100 := by omega
  have hd : t.day < 100 := by omega
  have hho : t.hour < 100 := by omega
  have hmi : t.minute < 100 := by omega
  have hs : t.second < 100 := by omega
  unfold parseDTChars isoChars
  rw [read4_pad4 _ hy]
  simp only [Option.bind_eq_bind, Option.some_bind]
  rw [expectCh_cons]
  simp only [Option.bind_eq_bind, Option.some_bind]
  rw [read2_pad2 _ hmo]
  simp only [Option.bind_eq_bind, Option.some_bind]
  rw [expectCh_cons]
  simp only [Option.bind_eq_bind, Option.some_bind]
  rw [read2_pad2 _ hd]
  simp only [Option.bind_eq_bind, Option.some_bind]
  rw [expectCh_cons]
  simp only [Option.bind_eq_bind, Option.some_bind]
  rw [read2_pad2 _ hho]
  simp only [Option.bind_eq_bind, Option.some_bind]
  rw [expectCh_cons]
  simp only [Option.bind_eq_bind, Option.some_bind]
  rw [read2_pad2 _ hmi]
  simp only [Option.bind_eq_bind, Option.some_bind]
  rw [expectCh_cons]
  simp only [Option.bind_eq_bind, Option.some_bind]
  rw [read2_pad2 _ hs]
  simp only [Option.bind_eq_bind, Option.some_bind]
  by_cases hm0 : t.micro = 0
  · rw [hm0]
    rw [show fracChars 0 = [] from rfl, List.nil_append]
    rw [readFrac_tzChars]
    simp only [Option.bind_eq_bind, Option.some_bind]
    rw [parseTz_tzChars t.tz htz]
    simp only [Option.bind_eq_bind, Option.some_bind, Option.pure_def]
    rw [← hm0]
  · rw [readFrac_frac t.micro hm0 (by omega)]
    simp only [Option.bind_eq_bind, Option.some_bind]
    rw [parseTz_tzChars t.tz htz]
    simp only [Option.bind_eq_bind, Option.some_bind, Option.pure_def]

theorem digitChar_ne_Z (d : Nat) (h : d < 10) : digitChar d ≠ 'Z' := by
  interval_cases d <;> decide

theorem noZ_append (l1 l2 : List Char) (h1 : ∀ c ∈ l1, c ≠ 'Z')
    (h2 : ∀ c ∈ l2, c ≠ 'Z') : ∀ c ∈ l1 ++ l2, c ≠ 'Z' :=
  fun c hc => (List.mem_append.mp hc).elim (h1 c) (h2 c)

theorem noZ_cons (a : Char) (l : List Char) (ha : a ≠ 'Z')
    (h : ∀ c ∈ l, c ≠ 'Z') : ∀ c ∈ a :: l, c ≠ 'Z' := by
  intro c hc
  rcases List.mem_cons.mp hc with rfl | hc
  · exact ha
  · exact h c hc

theorem mem_pad2_ne_Z (n : Nat) (h : n < 100) :
    ∀ c ∈ pad2 n, c ≠ 'Z' := by
  unfold pad2
  exact noZ_cons _ _ (digitChar_ne_Z _ (by omega))
    (noZ_cons _ _ (digitChar_ne_Z _ (by omega)) (fun c hc => absurd hc
      (List.not_mem_nil c)))

theorem mem_pad4_ne_Z (n : Nat) (h : n < 10000) :
    ∀ c ∈ pad4 n, c ≠ 'Z' := by
  unfold pad4
  exact noZ_cons _ _ (digitChar_ne_Z _ (by omega))
    (noZ_cons _ _ (digitChar_ne_Z _ (by omega))
      (noZ_cons _ _ (digitChar_ne_Z _ (by omega))
        (noZ_cons _ _ (digitChar_ne_Z _ (by omega)) (fun c hc => absurd hc
          (List.not_mem_nil c)))))

theorem mem_pad6_ne_Z (n : Nat) (h : n < 1000000) :
    ∀ c ∈ pad6 n, c ≠ 'Z' := by
  unfold pad6
  exact noZ_cons _ _ (digitChar_ne_Z _ (by omega))
    (noZ_cons _ _ (digitChar_ne_Z _ (by omega))
      (noZ_cons _ _ (digitChar_ne_Z _ (by omega))
        (noZ_cons _ _ (digitChar_ne_Z _ (by omega))
          (noZ_cons _ _ (digitChar_ne_Z _ (by omega))
            (noZ_cons _ _ (digitChar_ne_Z _ (by omega)) (fun c hc =>
              absurd hc (List.not_mem_nil c)))))))

theorem mem_fracChars_ne_Z (n : Nat) (h : n < 1000000) :
    ∀ c ∈ fracChars n, c ≠ 'Z' := by
  unfold fracChars
  split_ifs with h0
  · exact fun c hc => absurd hc (List.not_mem_nil c)
  · exact noZ_cons _ _ (by decide) (mem_pad6_ne_Z n h)

theorem mem_tzChars_ne_Z (tz : Option Int)
    (h : match tz with
         | none => True
         | some off => off.natAbs ≤ 1439) :
    ∀ c ∈ tzChars tz, c ≠ 'Z' := by
  cases tz with
  | none => exact fun c hc => absurd hc (List.not_mem_nil c)
  | some off =>
      have habs : off.natAbs ≤ 1439 := h
      unfold tzChars
      refine noZ_cons _ _ ?_ (noZ_append _ _ (mem_pad2_ne_Z _ (by omega))
        (noZ_cons _ _ (by decide) (mem_pad2_ne_Z _ (by omega))))
      split_ifs <;> decide

theorem mem_isoChars_ne_Z (t : DT) (h : t.valid = true) :
    ∀ c ∈ isoChars t, c ≠ 'Z' := by
  unfold DT.valid at h
  simp only [Bool.and_eq_true, decide_eq_true_eq] at h
  obtain ⟨⟨⟨⟨⟨⟨⟨⟨⟨⟨h1, h2⟩, h3⟩, h4⟩, h5⟩, h6⟩, h7⟩, h8⟩, h9⟩, h10⟩, h11⟩ := h
  have htz : (match t.tz with
              | none => True
              | some off => off.natAbs ≤ 1439) := by
    cases hz : t.tz with
    | none => trivial
    | some off =>
        rw [hz] at h11
        simpa using h11
  unfold isoChars
  exact noZ_append _ _ (mem_pad4_ne_Z _ (by omega))
    (noZ_cons _ _ (by decide) (noZ_append _ _ (mem_pad2_ne_Z _ (by omega))
      (noZ_cons _ _ (by decide) (noZ_append _ _ (mem_pad2_ne_Z _ (by omega))
        (noZ_cons _ _ (by decide) (noZ_append _ _ (mem_pad2_ne_Z _ (by omega))
          (noZ_cons _ _ (by decide)
            (noZ_append _ _ (mem_pad2_ne_Z _ (by omega))
              (noZ_cons _ _ (by decide)
                (noZ_append _ _ (mem_pad2_ne_Z _ (by omega))
                  (noZ_append _ _ (mem_fracChars_ne_Z _ (by omega))
                    (mem_tzChars_ne_Z t.tz htz))))))))))))

theorem replaceZChars_of_noZ (l : List Char) (h : ∀ c ∈ l, c ≠ 'Z') :
    replaceZChars l = l := by
  induction l with
  | nil => rfl
  | cons a r ih =>
      unfold replaceZChars at ih ⊢
      rw [List.flatMap_cons]
      rw [if_neg (h a (List.mem_cons_self a r))]
      rw [ih (fun c hc => h c (List.mem_cons_of_mem a hc))]
      rfl

/-- Validity of a stored `Message` in the model: content is trimmed,
non-empty and within the 10,000-character bound (the construction-time
invariant), and the timestamp is a real calendar instant. -/
def Msg.ok (m : Msg) : Bool :=
  (pyStrip m.content == m.content) && (m.content != "") &&
    (m.content.length ≤ 10000) && m.timestamp.valid

/-- Validity of a stored `Conversation` in the model. -/
def Conv.ok (c : Conv) : Bool :=
  c.messages.all Msg.ok && c.created_at.valid && c.updated_at.valid

theorem parseMessageType_value (mt : MessageType) :
    parseMessageType mt.value = some mt := by
  cases mt <;> rfl

theorem parseDT_iso_of_valid (t : DT) (h : t.valid = true) :
    parseDT (replaceZ t.iso) = some t := by
  unfold parseDT replaceZ DT.iso
  show parseDTChars (replaceZChars (isoChars t)) = some t
  rw [replaceZChars_of_noZ _ (mem_isoChars_ne_Z t h)]
  exact parseDTChars_isoChars t h

theorem msg_roundtrip (m : Msg) (h : Msg.ok m = true) :
    Msg.fromDict (Msg.toDict m) = some m := by
  unfold Msg.ok at h
  simp only [Bool.and_eq_true, beq_iff_eq, bne_iff_ne, ne_eq,
    decide_eq_true_eq] at h
  obtain ⟨⟨⟨hstrip, hne⟩, hlen⟩, hval⟩ := h
  unfold Msg.toDict Msg.fromDict
  rw [parseDT_iso_of_valid m.timestamp hval]
  rw [parseMessageType_value m.type]
  rw [validateContent_ok_of m.content (by rw [hstrip]; exact hne) hlen]
  rw [hstrip]

theorem msgsFromDicts_roundtrip (ms : List Msg)
    (h : ms.all Msg.ok = true) :
    msgsFromDicts (ms.map Msg.toDict) = some ms := by
  induction ms with
  | nil => rfl
  | cons m rest ih =>
      rw [List.all_cons, Bool.and_eq_true] at h
      show msgsFromDicts (Msg.toDict m :: rest.map Msg.toDict) = _
      unfold msgsFromDicts
      rw [msg_roundtrip m h.1, ih h.2]

theorem conv_roundtrip (c : Conv) (h : Conv.ok c = true) :
    Conv.fromDict (Conv.toDict c) = some c := by
  unfold Conv.ok at h
  simp only [Bool.and_eq_true] at h
  obtain ⟨⟨hmsgs, hca⟩, hua⟩ := h
  unfold Conv.toDict Conv.fromDict
  rw [parseDT_iso_of_valid c.created_at hca,
    parseDT_iso_of_valid c.updated_at hua]
  rw [msgsFromDicts_roundtrip c.messages hmsgs]

theorem valid_set_tz0 (t : DT) (h : t.valid = true) :
    (DT.mk t.year t.month t.day t.hour t.minute t.second t.micro
      (some 0)).valid = true := by
  unfold DT.valid at h ⊢
  simp only [Bool.and_eq_true, decide_eq_true_eq] at h ⊢
  obtain ⟨⟨⟨⟨⟨⟨⟨⟨⟨⟨h1, h2⟩, h3⟩, h4⟩, h5⟩, h6⟩, h7⟩, h8⟩, h9⟩, h10⟩, _⟩ := h
  exact ⟨⟨⟨⟨⟨⟨⟨⟨⟨⟨h1, h2⟩, h3⟩, h4⟩, h5⟩, h6⟩, h7⟩, h8⟩, h9⟩, h10⟩,
    by decide⟩

theorem isoChars_set_tz0 (t : DT) (hz : t.tz = none) :
    isoChars (DT.mk t.year t.month t.day t.hour t.minute t.second t.micro
      (some 0)) = isoChars t ++ tzChars (some 0) := by
  unfold isoChars
  rw [hz]
  simp [tzChars, List.append_assoc]

theorem replaceZChars_append (l1 l2 : List Char) :
    replaceZChars (l1 ++ l2) = replaceZChars l1 ++ replaceZChars l2 := by
  unfold replaceZChars
  exact List.flatMap_append l1 l2 _

theorem replaceZChars_append_Z (l : List Char) (h : ∀ c ∈ l, c ≠ 'Z') :
    replaceZChars (l ++ ['Z']) = l ++ ['+', '0', '0', ':', '0', '0'] := by
  rw [replaceZChars_append, replaceZChars_of_noZ l h]
  rfl

/-- C4: `to_dict` / `from_dict` round-trip on both `Message` and
`Conversation` reproduces the record exactly (in particular content,
type, identifier and timestamps), and a serialized timestamp carrying a
trailing literal `Z` is parsed back to the encoded instant as a
UTC-aware datetime (`replace("Z", "+00:00")` tolerance). -/
theorem c4_roundtrip_serialization :
    (∀ m : Msg, Msg.ok m = true → Msg.fromDict (Msg.toDict m) = some m) ∧
    (∀ c : Conv, Conv.ok c = true →
      Conv.fromDict (Conv.toDict c) = some c) ∧
    (∀ m : Msg, Msg.ok m = true → m.timestamp.tz = none →
      Msg.fromDict (MsgDict.mk m.id m.content m.type.value
        (m.timestamp.iso ++ "Z") m.conversation_id) =
        some (Msg.mk m.id m.content m.type
          (DT.mk m.timestamp.year m.timestamp.month m.timestamp.day
            m.timestamp.hour m.timestamp.minute m.timestamp.second
            m.timestamp.micro (some 0)) m.conversation_id)) := by
  refine ⟨msg_roundtrip, conv_roundtrip, ?_⟩
  intro m h hz
  unfold Msg.ok at h
  simp only [Bool.and_eq_true, beq_iff_eq, bne_iff_ne, ne_eq,
    decide_eq_true_eq] at h
  obtain ⟨⟨⟨hstrip, hne⟩, hlen⟩, hval⟩ := h
  unfold Msg.fromDict
  have hdata : (m.timestamp.iso ++ "Z").data =
      isoChars m.timestamp ++ ['Z'] := by
    rw [String.data_append]
    rfl
  have hrep : parseDT (replaceZ (m.timestamp.iso ++ "Z")) =
      some (DT.mk m.timestamp.year m.timestamp.month m.timestamp.day
        m.timestamp.hour m.timestamp.minute m.timestamp.second
        m.timestamp.micro (some 0)) := by
    unfold parseDT replaceZ
    show parseDTChars (replaceZChars (m.timestamp.iso ++ "Z").data) = _
    rw [hdata]
    rw [replaceZChars_append_Z _ (mem_isoChars_ne_Z m.timestamp hval)]
    rw [show (['+', '0', '0', ':', '0', '0'] : List Char) =
      tzChars (some 0) from rfl]
    rw [← isoChars_set_tz0 m.timestamp hz]
    exact parseDTChars_isoChars _ (valid_set_tz0 m.timestamp hval)
  rw [hrep]
  rw [parseMessageType_value m.type]
  rw [validateContent_ok_of m.content (by rw [hstrip]; exact hne) hlen]
  rw [hstrip]

/-- C4 witness: round-trip at a concrete message, a concrete
conversation, and a concrete Z-suffixed timestamp. -/
theorem c4_roundtrip_serialization_witness :
    Msg.fromDict (Msg.toDict (Msg.mk "m1" "hello" MessageType.user
      (DT.mk 2024 1 1 12 30 5 123456 none) "conv1")) =
      some (Msg.mk "m1" "hello" MessageType.user
        (DT.mk 2024 1 1 12 30 5 123456 none) "conv1") ∧
    Conv.fromDict (Conv.toDict (Conv.mk "conv1"
      [Msg.mk "m1" "hi" MessageType.ai (DT.mk 2024 2 3 4 5 6 0 none)
        "conv1"]
      (DT.mk 2024 1 1 0 0 0 0 none) (DT.mk 2024 1 1 0 0 1 0 none))) =
      some (Conv.mk "conv1"
        [Msg.mk "m1" "hi" MessageType.ai (DT.mk 2024 2 3 4 5 6 0 none)
          "conv1"]
        (DT.mk 2024 1 1 0 0 0 0 none) (DT.mk 2024 1 1 0 0 1 0 none)) ∧
    Msg.fromDict (MsgDict.mk "m1" "hello" "user"
      ((DT.mk 2024 1 1 12 0 0 0 none).iso ++ "Z") "conv1") =
      some (Msg.mk "m1" "hello" MessageType.user
        (DT.mk 2024 1 1 12 0 0 0 (some 0)) "conv1") := by
  refine ⟨c4_roundtrip_serialization.1 _ (by decide),
    c4_roundtrip_serialization.2.1 _ (by decide),
    c4_roundtrip_serialization.2.2 (Msg.mk "m1" "hello" MessageType.user
      (DT.mk 2024 1 1 12 0 0 0 none) "conv1") (by decide) (by rfl)⟩

/-- The chunk events the spec predicts: the i-th (1-based) `chunk` event
carries the i-th non-empty fragment, `chunk_index = i`, and
`response_length` = length of the concatenation of the first `i`
emitted fragments. -/
def specChunks (cid : String) (fs : List String) : List Chunk :=
  (List.range (fs.filter (fun f => f != "")).length).map (fun i =>
    chunkEvent cid ((fs.filter (fun f => f != "")).getD i "") (i + 1)
      (concatFrags ((fs.filter (fun f => f != "")).take (i + 1))).length)

theorem chunkEvent_congr (cid s : String) (a b a2 b2 : Nat)
    (ha : a = a2) (hb : b = b2) :
    chunkEvent cid s a b = chunkEvent cid s a2 b2 := by
  rw [ha, hb]

theorem chunkEventsAux_spec (cid : String) (fs : List String)
    (full : String) (idx : Nat) :
    chunkEventsAux cid fs full idx =
      (List.range (fs.filter (fun f => f != "")).length).map (fun i =>
        chunkEvent cid ((fs.filter (fun f => f != "")).getD i "")
          (idx + i + 1)
          (full.length +
            (concatFrags ((fs.filter (fun f => f != "")).take
              (i + 1))).length)) := by
  induction fs generalizing full idx with
  | nil => rfl
  | cons f rest ih =>
      by_cases hf : f = ""
      · have hfilter : (f :: rest).filter (fun f => f != "") =
            rest.filter (fun f => f != "") := by
          simp [List.filter_cons, hf]
        rw [hfilter]
        show chunkEventsAux cid (f :: rest) full idx = _
        unfold chunkEventsAux
        rw [if_pos hf]
        exact ih full idx
      · have hfilter : (f :: rest).filter (fun f => f != "") =
            f :: rest.filter (fun f => f != "") := by
          simp [List.filter_cons, hf]
        rw [hfilter]
        show chunkEventsAux cid (f :: rest) full idx = _
        unfold chunkEventsAux
        rw [if_neg hf]
        rw [List.length_cons, List.range_succ_eq_map, List.map_cons,
          List.map_map]
        have hhead : chunkEvent cid f (idx + 1) (full ++ f).length =
            chunkEvent cid ((f :: rest.filter (fun f => f != "")).getD 0 "")
              (idx + 0 + 1)
              (full.length +
                (concatFrags ((f :: rest.filter (fun f => f != "")).take
                  (0 + 1))).length) := by
          show chunkEvent cid f (idx + 1) (full ++ f).length =
            chunkEvent cid f (idx + 0 + 1)
              (full.length + (concatFrags [f]).length)
          rw [show concatFrags [f] = f ++ "" from rfl]
          rw [String.length_append, String.length_append]
          exact chunkEvent_congr cid f _ _ _ _ (by omega)
            (by rw [show ("" : String).length = 0 from rfl]; omega)
        rw [ih (full ++ f) (idx + 1)]
        rw [hhead]
        congr 1
        apply List.map_congr_left
        intro i hi
        show chunkEvent cid ((rest.filter (fun f => f != "")).getD i "")
            (idx + 1 + i + 1)
            ((full ++ f).length +
              (concatFrags ((rest.filter (fun f => f != "")).take
                (i + 1))).length) =
          chunkEvent cid
            ((f :: rest.filter (fun f => f != "")).getD (i + 1) "")
            (idx + (i + 1) + 1)
            (full.length +
              (concatFrags ((f :: rest.filter (fun f => f != "")).take
                (i + 1 + 1))).length)
        rw [List.getD_cons_succ]
        rw [show (f :: rest.filter (fun f => f != "")).take (i + 1 + 1) =
          f :: (rest.filter (fun f => f != "")).take (i + 1) from rfl]
        rw [show concatFrags (f :: (rest.filter (fun f => f != "")).take
          (i + 1)) = f ++ concatFrags ((rest.filter (fun f => f != "")).take
          (i + 1)) from rfl]
        rw [String.length_append, String.length_append]
        exact chunkEvent_congr cid _ _ _ _ _ (by omega) (by omega)

theorem find?_map_set (l : List (String × Conv)) (cid : String) (c : Conv)
    (h : (l.find? (fun p => p.1 == cid)).isSome = true) :
    (l.map (fun p => if p.1 == cid then (cid, c) else p)).find?
      (fun p => p.1 == cid) = some (cid, c) := by
  induction l with
  | nil => cases h
  | cons a r ih =>
      by_cases ha : (a.1 == cid) = true
      · rw [List.map_cons, if_pos ha]
        rw [List.find?_cons_of_pos]
        simp
      · rw [List.map_cons, if_neg ha]
        rw [List.find?_cons_of_neg _ (by simpa using ha)]
        apply ih
        rw [List.find?_cons_of_neg _ (by simpa using ha)] at h
        exact h

theorem find?_append_set (l : List (String × Conv)) (cid : String)
    (c : Conv) (h : l.find? (fun p => p.1 == cid) = none) :
    (l ++ [(cid, c)]).find? (fun p => p.1 == cid) = some (cid, c) := by
  induction l with
  | nil =>
      rw [List.nil_append]
      rw [List.find?_cons_of_pos]
      simp
  | cons a r ih =>
      have hall := List.find?_eq_none.mp h
      have ha : (a.1 == cid) = false := by
        have := hall a (List.mem_cons_self a r)
        simpa using this
      rw [List.cons_append, List.find?_cons]
      simp only [ha]
      apply ih
      exact List.find?_eq_none.mpr
        (fun x hx => hall x (List.mem_cons_of_mem a hx))

theorem getConv_setConv (st : EngineState) (cid : String) (c : Conv) :
    (st.setConv cid c).getConv cid = some c := by
  unfold EngineState.setConv EngineState.getConv
  split_ifs with h
  · rw [find?_map_set st.conversations cid c h]
    rfl
  · rw [find?_append_set st.conversations cid c]
    · rfl
    · cases hf : st.conversations.find? (fun p => p.1 == cid) with
      | none => rfl
      | some p =>
          rw [hf] at h
          simp at h

theorem setConv_activeStreams (st : EngineState) (cid : String) (c : Conv) :
    (st.setConv cid c).activeStreams = st.activeStreams := by
  unfold EngineState.setConv
  split_ifs <;> rfl

theorem filterMap_toLC_length (l : List Msg)
    (h : ∀ m ∈ l, m.type ≠ MessageType.system) :
    (l.filterMap toLC).length = l.length := by
  induction l with
  | nil => rfl
  | cons m rest ih =>
      have hm := h m (List.mem_cons_self m rest)
      have hrest := ih (fun x hx => h x (List.mem_cons_of_mem m hx))
      cases hmt : m.type with
      | system => exact absurd hmt hm
      | user =>
          rw [List.filterMap_cons]
          rw [show toLC m = some (LC.human m.content) by
            unfold toLC; rw [hmt]]
          rw [List.length_cons, List.length_cons, hrest]
      | ai =>
          rw [List.filterMap_cons]
          rw [show toLC m = some (LC.ai m.content) by
            unfold toLC; rw [hmt]]
          rw [List.length_cons, List.length_cons, hrest]

theorem convWfB_id (k : String) (c : Conv) (h : Conv.wfB k c = true) :
    c.id = k := by
  unfold Conv.wfB at h
  rw [Bool.and_eq_true] at h
  simpa using h.1

theorem addMessage_success_form (c : Conv) (raw : String)
    (mtype : MessageType) (nid : String) (now : DT)
    (hs : pyStrip raw ≠ "") (hl : raw.length ≤ 10000) :
    c.addMessage raw mtype nid now =
      Except.ok (Conv.mk c.id
        (c.messages ++ [Msg.mk nid (pyStrip raw) mtype now c.id])
        c.created_at now, Msg.mk nid (pyStrip raw) mtype now c.id) := by
  unfold Conv.addMessage mkMsg
  rw [validateContent_ok_of raw hs hl]

theorem streamPrep_success (st : EngineState) (cid msg uid : String)
    (now : DT)
    (hmsg : pyStrip msg ≠ "") (hlen : msg.length ≤ 10000)
    (hguard : st.activeStreams.contains cid = false)
    (hsize : (st.ensureConv cid now).2.messages.length < 1000)
    (hsys : ∀ m ∈ (st.ensureConv cid now).2.messages,
      m.type ≠ MessageType.system) :
    streamPrep st cid msg uid now =
      PrepOut.mk [startChunk cid]
        ((st.ensureConv cid now).1.setConv cid
          (Conv.mk (st.ensureConv cid now).2.id
            ((st.ensureConv cid now).2.messages ++
              [Msg.mk uid (pyStrip msg) MessageType.user now
                (st.ensureConv cid now).2.id])
            (st.ensureConv cid now).2.created_at now))
        (some (((Conv.mk (st.ensureConv cid now).2.id
            ((st.ensureConv cid now).2.messages ++
              [Msg.mk uid (pyStrip msg) MessageType.user now
                (st.ensureConv cid now).2.id])
            (st.ensureConv cid now).2.created_at
            now).getRecentMessages 10).filterMap toLC)) := by
  have hne : msg ≠ "" := by
    intro h
    apply hmsg
    rw [h]
    rfl
  unfold streamPrep
  split_ifs with h1 h2 h3
  · exfalso
    rcases (by simpa using h1 : msg = "" ∨ pyStrip msg = "") with h | h
    · exact hne h
    · exact hmsg h
  · omega
  · rw [hguard] at h3
    cases h3
  · rcases hE : st.ensureConv cid now with ⟨st1, c0⟩
    rw [hE] at hsize hsys
    dsimp only at hsize hsys
    dsimp only
    rw [addMessage_success_form c0 msg MessageType.user uid now hmsg hlen]
    dsimp only
    rw [if_neg (show ¬((c0.messages ++
        [Msg.mk uid (pyStrip msg) MessageType.user now c0.id]).length >
        1000) by
      rw [List.length_append]
      simp only [List.length_cons, List.length_nil]
      omega)]
    rw [if_neg ?hctx]
    case hctx =>
      set c2 := Conv.mk c0.id
        (c0.messages ++ [Msg.mk uid (pyStrip msg) MessageType.user now
          c0.id]) c0.created_at now with hc2
      intro hempty
      have hall : ∀ m ∈ c2.messages, m.type ≠ MessageType.system := by
        intro m hm
        rcases List.mem_append.mp hm with hm | hm
        · exact hsys m hm
        · rw [List.mem_singleton] at hm
          rw [hm]
          intro hh
          cases hh
      have hlenq : ((c2.getRecentMessages 10).filterMap toLC).length =
          (c2.getRecentMessages 10).length := by
        apply filterMap_toLC_length
        intro m hm
        apply hall
        have hsub : m ∈ sortDesc c2.messages :=
          List.take_subset 10 (sortDesc c2.messages) hm
        exact (sortDesc_perm c2.messages).subset hsub
      have hlenr : (c2.getRecentMessages 10).length =
          min 10 c2.messages.length := by
        show ((sortDesc c2.messages).take 10).length = _
        rw [List.length_take, (sortDesc_perm c2.messages).length_eq]
      have hpos : 0 < c2.messages.length := by
        show 0 < (c0.messages ++ [_]).length
        rw [List.length_append]
        simp
      rw [hempty] at hlenq
      simp only [List.length_nil] at hlenq
      omega

theorem streamFinish_success (st : EngineState) (cid : String)
    (fs : List String) (aiId : String) (now2 : DT) (c : Conv)
    (hconv : st.getConv cid = some c)
    (hfs : pyStrip (concatFrags fs) ≠ "")
    (hlen : (concatFrags fs).length ≤ 10000) :
    streamFinish st cid fs none aiId now2 =
      (chunkEventsAux cid fs "" 0 ++
        [endChunk cid (chunkEventsAux cid fs "" 0).length
          (concatFrags fs).length],
       st.setConv cid (Conv.mk c.id
         (c.messages ++ [Msg.mk aiId (pyStrip (concatFrags fs))
           MessageType.ai now2 c.id])
         c.created_at now2)) := by
  have hfull : concatFrags fs ≠ "" := by
    intro hh
    apply hfs
    rw [hh]
    rfl
  unfold streamFinish
  dsimp only
  rw [if_neg hfull]
  have hsafe : st.safeAddMessage cid (concatFrags fs) MessageType.ai aiId
      now2 =
      (st.setConv cid (Conv.mk c.id
        (c.messages ++ [Msg.mk aiId (pyStrip (concatFrags fs))
          MessageType.ai now2 c.id])
        c.created_at now2),
       Except.ok (Msg.mk aiId (pyStrip (concatFrags fs)) MessageType.ai
         now2 c.id)) := by
    unfold EngineState.safeAddMessage EngineState.ensureConv
    rw [hconv]
    dsimp only
    rw [addMessage_success_form c (concatFrags fs) MessageType.ai aiId
      now2 hfs hlen]
  rw [hsafe]
  dsimp only
  rw [List.append_nil]

theorem processMessage_success (st : EngineState) (cid u1 t uid aiId :
    String) (now1 now2 : DT)
    (hu : pyStrip u1 ≠ "") (hul : u1.length ≤ 10000)
    (ht : pyStrip t ≠ "") (htl : t.length ≤ 10000)
    (habsent : st.getConv cid = none) :
    processMessage st cid u1 (AggOutcome.ok t) uid aiId now1 now2 =
      (((st.setConv cid (Conv.mk cid [] now1 now1)).setConv cid
        (Conv.mk cid [Msg.mk uid (pyStrip u1) MessageType.user now1 cid]
          now1 now1)).setConv cid
        (Conv.mk cid
          [Msg.mk uid (pyStrip u1) MessageType.user now1 cid,
           Msg.mk aiId (pyStrip t) MessageType.ai now2 cid]
          now1 now2), t) := by
  have hne : ¬(pyStrip u1 = "") := hu
  have hne2 : u1 ≠ "" := by
    intro h
    apply hu
    rw [h]
    rfl
  unfold processMessage
  rw [if_neg (by simp [hne2, hne])]
  have hsafe1 : st.safeAddMessage cid u1 MessageType.user uid now1 =
      ((st.setConv cid (Conv.mk cid [] now1 now1)).setConv cid
        (Conv.mk cid [Msg.mk uid (pyStrip u1) MessageType.user now1 cid]
          now1 now1),
       Except.ok (Msg.mk uid (pyStrip u1) MessageType.user now1 cid)) := by
    unfold EngineState.safeAddMessage EngineState.ensureConv
    rw [habsent]
    dsimp only
    rw [addMessage_success_form (Conv.mk cid [] now1 now1) u1
      MessageType.user uid now1 hu hul]
    dsimp only
    rw [List.nil_append]
  rw [hsafe1]
  dsimp only
  have hsafe2 : ((st.setConv cid (Conv.mk cid [] now1 now1)).setConv cid
      (Conv.mk cid [Msg.mk uid (pyStrip u1) MessageType.user now1 cid]
        now1 now1)).safeAddMessage cid t MessageType.ai aiId now2 =
      (((st.setConv cid (Conv.mk cid [] now1 now1)).setConv cid
        (Conv.mk cid [Msg.mk uid (pyStrip u1) MessageType.user now1 cid]
          now1 now1)).setConv cid
        (Conv.mk cid
          [Msg.mk uid (pyStrip u1) MessageType.user now1 cid,
           Msg.mk aiId (pyStrip t) MessageType.ai now2 cid]
          now1 now2),
       Except.ok (Msg.mk aiId (pyStrip t) MessageType.ai now2 cid)) := by
    unfold EngineState.safeAddMessage EngineState.ensureConv
    rw [getConv_setConv]
    dsimp only
    rw [addMessage_success_form _ t MessageType.ai aiId now2 ht htl]
    dsimp only
    simp only [List.cons_append, List.nil_append]
  rw [hsafe2]

theorem chunkEventsAux_eq_specChunks (cid : String) (fs : List String) :
    chunkEventsAux cid fs "" 0 = specChunks cid fs := by
  rw [chunkEventsAux_spec]
  unfold specChunks
  apply List.map_congr_left
  intro i hi
  exact chunkEvent_congr _ _ _ _ _ _ (by omega)
    (by rw [show ("" : String).length = 0 from rfl]; omega)

theorem streamTurn_success (st : EngineState) (cid msg uid aiId : String)
    (now now2 : DT) (fs : List String)
    (hmsg : pyStrip msg ≠ "") (hlen : msg.length ≤ 10000)
    (hguard : st.activeStreams.contains cid = false)
    (hsize : (st.ensureConv cid now).2.messages.length < 1000)
    (hsys : ∀ m ∈ (st.ensureConv cid now).2.messages,
      m.type ≠ MessageType.system)
    (hfs : pyStrip (concatFrags fs) ≠ "")
    (hflen : (concatFrags fs).length ≤ 10000) :
    processMessageStream st cid msg uid aiId now now2 fs none =
      ([startChunk cid] ++ specChunks cid fs ++
        [endChunk cid (specChunks cid fs).length (concatFrags fs).length],
       ((st.ensureConv cid now).1.setConv cid
         (Conv.mk (st.ensureConv cid now).2.id
           ((st.ensureConv cid now).2.messages ++
             [Msg.mk uid (pyStrip msg) MessageType.user now
               (st.ensureConv cid now).2.id])
           (st.ensureConv cid now).2.created_at now)).setConv cid
         (Conv.mk (st.ensureConv cid now).2.id
           (((st.ensureConv cid now).2.messages ++
             [Msg.mk uid (pyStrip msg) MessageType.user now
               (st.ensureConv cid now).2.id]) ++
             [Msg.mk aiId (pyStrip (concatFrags fs)) MessageType.ai now2
               (st.ensureConv cid now).2.id])
           (st.ensureConv cid now).2.created_at now2),
       true) := by
  unfold processMessageStream
  rw [streamPrep_success st cid msg uid now hmsg hlen hguard hsize hsys]
  dsimp only
  rw [streamFinish_success _ cid fs aiId now2 _ (getConv_setConv _ cid _)
    hfs hflen]
  rw [chunkEventsAux_eq_specChunks]
  simp only [List.singleton_append, List.cons_append, List.append_assoc]

/-- C2 (amended): in a streaming turn that runs to its `end` event, the
i-th `chunk` event (1-based) carries the i-th non-empty fragment with
metadata `chunk_index = i` and `response_length` equal to the length of
the concatenation of the first `i` emitted fragments; the AI message
appended to the conversation carries the TRIMMED concatenation of all
`chunk` events' contents (`full_response` passes through the Message
content validator, which strips surrounding whitespace); and a
non-streaming turn followed by a streaming turn on the same fresh
conversation id leaves exactly 4 stored messages in order
[user₁, AI₁, user₂, AI₂]. -/
theorem c2_streaming_turn_amended (st : EngineState)
    (cid msg uid aiId u1 t uidB aiIdB : String) (now now2 nowA nowB : DT)
    (fs : List String)
    (hmsg : pyStrip msg ≠ "") (hlen : msg.length ≤ 10000)
    (hguard : st.activeStreams.contains cid = false)
    (hsize : (st.ensureConv cid now).2.messages.length < 1000)
    (hsys : ∀ m ∈ (st.ensureConv cid now).2.messages,
      m.type ≠ MessageType.system)
    (hfs : pyStrip (concatFrags fs) ≠ "")
    (hflen : (concatFrags fs).length ≤ 10000)
    (hu : pyStrip u1 ≠ "") (hul : u1.length ≤ 10000)
    (ht : pyStrip t ≠ "") (htl : t.length ≤ 10000)
    (habsent : st.getConv cid = none) :
    (∀ i, i < (fs.filter (fun f => f != "")).length →
      (specChunks cid fs).getD i (startChunk cid) =
        chunkEvent cid ((fs.filter (fun f => f != "")).getD i "") (i + 1)
          (concatFrags ((fs.filter (fun f => f != "")).take
            (i + 1))).length) ∧
    (∃ st2, processMessageStream st cid msg uid aiId now now2 fs none =
        ([startChunk cid] ++ specChunks cid fs ++
          [endChunk cid (specChunks cid fs).length
            (concatFrags fs).length], st2, true) ∧
      st2.getConv cid = some (Conv.mk (st.ensureConv cid now).2.id
        (((st.ensureConv cid now).2.messages ++
          [Msg.mk uid (pyStrip msg) MessageType.user now
            (st.ensureConv cid now).2.id]) ++
          [Msg.mk aiId (pyStrip (concatFrags fs)) MessageType.ai now2
            (st.ensureConv cid now).2.id])
        (st.ensureConv cid now).2.created_at now2)) ∧
    (∃ st4, processMessageStream
        (processMessage st cid u1 (AggOutcome.ok t) uidB aiIdB nowA
          nowB).1 cid msg uid aiId now now2 fs none =
        ([startChunk cid] ++ specChunks cid fs ++
          [endChunk cid (specChunks cid fs).length
            (concatFrags fs).length], st4, true) ∧
      st4.getConv cid = some (Conv.mk cid
        [Msg.mk uidB (pyStrip u1) MessageType.user nowA cid,
         Msg.mk aiIdB (pyStrip t) MessageType.ai nowB cid,
         Msg.mk uid (pyStrip msg) MessageType.user now cid,
         Msg.mk aiId (pyStrip (concatFrags fs)) MessageType.ai now2 cid]
        nowA now2)) := by
  refine ⟨?_, ?_, ?_⟩
  · intro i hi
    unfold specChunks
    rw [List.getD_eq_getElem?_getD, List.getElem?_map,
      List.getElem?_range hi]
    rfl
  · exact ⟨_, streamTurn_success st cid msg uid aiId now now2 fs hmsg
      hlen hguard hsize hsys hfs hflen, getConv_setConv _ cid _⟩
  · rw [processMessage_success st cid u1 t uidB aiIdB nowA nowB hu hul ht
      htl habsent]
    dsimp only
    have hst3conv : (((st.setConv cid (Conv.mk cid [] nowA nowA)).setConv
        cid (Conv.mk cid [Msg.mk uidB (pyStrip u1) MessageType.user nowA
          cid] nowA nowA)).setConv cid
        (Conv.mk cid
          [Msg.mk uidB (pyStrip u1) MessageType.user nowA cid,
           Msg.mk aiIdB (pyStrip t) MessageType.ai nowB cid]
          nowA nowB)).getConv cid =
        some (Conv.mk cid
          [Msg.mk uidB (pyStrip u1) MessageType.user nowA cid,
           Msg.mk aiIdB (pyStrip t) MessageType.ai nowB cid]
          nowA nowB) :=
      getConv_setConv _ cid _
    have hEC : (((st.setConv cid (Conv.mk cid [] nowA nowA)).setConv
        cid (Conv.mk cid [Msg.mk uidB (pyStrip u1) MessageType.user nowA
          cid] nowA nowA)).setConv cid
        (Conv.mk cid
          [Msg.mk uidB (pyStrip u1) MessageType.user nowA cid,
           Msg.mk aiIdB (pyStrip t) MessageType.ai nowB cid]
          nowA nowB)).ensureConv cid now =
        (((st.setConv cid (Conv.mk cid [] nowA nowA)).setConv
          cid (Conv.mk cid [Msg.mk uidB (pyStrip u1) MessageType.user nowA
            cid] nowA nowA)).setConv cid
          (Conv.mk cid
            [Msg.mk uidB (pyStrip u1) MessageType.user nowA cid,
             Msg.mk aiIdB (pyStrip t) MessageType.ai nowB cid]
            nowA nowB),
         Conv.mk cid
           [Msg.mk uidB (pyStrip u1) MessageType.user nowA cid,
            Msg.mk aiIdB (pyStrip t) MessageType.ai nowB cid]
           nowA nowB) := by
      unfold EngineState.ensureConv
      rw [hst3conv]
    have hguard3 : (((st.setConv cid (Conv.mk cid [] nowA nowA)).setConv
        cid (Conv.mk cid [Msg.mk uidB (pyStrip u1) MessageType.user nowA
          cid] nowA nowA)).setConv cid
        (Conv.mk cid
          [Msg.mk uidB (pyStrip u1) MessageType.user nowA cid,
           Msg.mk aiIdB (pyStrip t) MessageType.ai nowB cid]
          nowA nowB)).activeStreams.contains cid = false := by
      rw [setConv_activeStreams, setConv_activeStreams,
        setConv_activeStreams]
      exact hguard
    have hTurn := streamTurn_success _ cid msg uid aiId now now2 fs hmsg
      hlen hguard3 (by rw [hEC]; simp) (by
        rw [hEC]
        intro m hm
        dsimp only at hm
        rcases List.mem_cons.mp hm with rfl | hm
        · intro hh; cases hh
        · rcases List.mem_cons.mp hm with rfl | hm
          · intro hh; cases hh
          · cases hm) hfs hflen
    rw [hEC] at hTurn
    dsimp only at hTurn
    rw [hTurn]
    refine ⟨_, rfl, ?_⟩
    rw [getConv_setConv]
    simp only [List.cons_append, List.nil_append]

/-- C2 witness: concrete non-streaming turn then streaming turn on the
fresh conversation id `"c"`, fragments `["你", "好"]`. -/
theorem c2_streaming_turn_amended_witness :
    ∃ st4, processMessageStream
        (processMessage EngineState.empty "c" "hello"
          (AggOutcome.ok "reply") "u1" "a1" (DT.mk 2024 1 1 0 0 0 0 none)
          (DT.mk 2024 1 1 0 0 1 0 none)).1 "c" "question" "u2" "a2"
        (DT.mk 2024 1 1 0 0 2 0 none) (DT.mk 2024 1 1 0 0 3 0 none)
        ["你", "好"] none =
      ([startChunk "c"] ++ specChunks "c" ["你", "好"] ++
        [endChunk "c" (specChunks "c" ["你", "好"]).length
          (concatFrags ["你", "好"]).length], st4, true) ∧
      st4.getConv "c" = some (Conv.mk "c"
        [Msg.mk "u1" "hello" MessageType.user
          (DT.mk 2024 1 1 0 0 0 0 none) "c",
         Msg.mk "a1" "reply" MessageType.ai
          (DT.mk 2024 1 1 0 0 1 0 none) "c",
         Msg.mk "u2" "question" MessageType.user
          (DT.mk 2024 1 1 0 0 2 0 none) "c",
         Msg.mk "a2" "你好" MessageType.ai
          (DT.mk 2024 1 1 0 0 3 0 none) "c"]
        (DT.mk 2024 1 1 0 0 0 0 none) (DT.mk 2024 1 1 0 0 3 0 none)) :=
  (c2_streaming_turn_amended EngineState.empty "c" "question" "u2" "a2"
    "hello" "reply" "u1" "a1" (DT.mk 2024 1 1 0 0 2 0 none)
    (DT.mk 2024 1 1 0 0 3 0 none) (DT.mk 2024 1 1 0 0 0 0 none)
    (DT.mk 2024 1 1 0 0 1 0 none) ["你", "好"]
    (by decide) (by decide) (by decide) (by decide) (by decide)
    (by decide) (by decide) (by decide) (by decide) (by decide)
    (by decide) (by decide)).2.2

/-- C2 counterexample: with provider fragments `[" hi"]` the turn ends
with an `end` event, the concatenation of the `chunk` events' contents
is `" hi"`, but the stored AI message content is the trimmed `"hi"` —
so the stored content does not equal the untrimmed concatenation the
claim asserts. -/
theorem c2_chunk_concat_counterexample :
    ((processMessageStream EngineState.empty "c" "hello" "u1" "a1"
        (DT.mk 2024 1 1 0 0 0 0 none) (DT.mk 2024 1 1 0 0 1 0 none)
        [" hi"] none).1.getLast?).map Chunk.type = some "end" ∧
    concatFrags (((processMessageStream EngineState.empty "c" "hello"
        "u1" "a1" (DT.mk 2024 1 1 0 0 0 0 none)
        (DT.mk 2024 1 1 0 0 1 0 none) [" hi"]
        none).1.filter (fun ch => ch.type == "chunk")).map
      Chunk.content) = " hi" ∧
    ((processMessageStream EngineState.empty "c" "hello" "u1" "a1"
        (DT.mk 2024 1 1 0 0 0 0 none) (DT.mk 2024 1 1 0 0 1 0 none)
        [" hi"] none).2.1.getConv "c").map
      (fun c => c.messages.map (fun m => (m.content, m.type.value))) =
      some [("hello", "user"), ("hi", "ai")] ∧
    ("hi" : String) ≠ " hi" := by
  decide

/-- C1: evaluation of the streaming-exclusivity code at the failing
interleavings.  (i) The guard taken by `_conversation_context` is
released when the `async with` block exits — before the provider's
`generate_response_stream` is called — so after the first turn's
preparation phase no conversation id is marked active.  (ii) A second
concurrent call entering at that point (the first turn suspended at its
provider call, not yet completed) is processed in full: the provider is
invoked a second time for the same id and no `error` chunk is emitted.
(iii) A second call that does arrive while the guard is held is
rejected through the outermost `except Exception` handler, producing
error category `"unexpected_error"` — not a conflict category (the
repository's own test expects `"concurrent_streaming"` and content
containing "already being streamed"). -/
theorem c1_streaming_guard_evaluation :
    (streamPrep EngineState.empty "c" "第一个流式请求" "u1"
      (DT.mk 2024 1 1 0 0 0 0 none)).ctx.isSome = true ∧
    (streamPrep EngineState.empty "c" "第一个流式请求" "u1"
      (DT.mk 2024 1 1 0 0 0 0 none)).state.activeStreams = [] ∧
    (processMessageStream
      (streamPrep EngineState.empty "c" "第一个流式请求" "u1"
        (DT.mk 2024 1 1 0 0 0 0 none)).state
      "c" "第二个流式请求" "u2" "a2" (DT.mk 2024 1 1 0 0 1 0 none)
      (DT.mk 2024 1 1 0 0 2 0 none) ["第二", "个回复"] none).2.2 = true ∧
    (processMessageStream
      (streamPrep EngineState.empty "c" "第一个流式请求" "u1"
        (DT.mk 2024 1 1 0 0 0 0 none)).state
      "c" "第二个流式请求" "u2" "a2" (DT.mk 2024 1 1 0 0 1 0 none)
      (DT.mk 2024 1 1 0 0 2 0 none) ["第二", "个回复"]
      none).1.all (fun ch => ch.type != "error") = true ∧
    (processMessageStream (EngineState.mk [] ["c"]) "c" "第二个流式请求"
      "u2" "a2" (DT.mk 2024 1 1 0 0 1 0 none)
      (DT.mk 2024 1 1 0 0 2 0 none) ["x"] none).1 =
      [startChunk "c", unexpectedErrorChunk "c"] ∧
    (processMessageStream (EngineState.mk [] ["c"]) "c" "第二个流式请求"
      "u2" "a2" (DT.mk 2024 1 1 0 0 1 0 none)
      (DT.mk 2024 1 1 0 0 2 0 none) ["x"] none).2.2 = false ∧
    (unexpectedErrorChunk "c").meta "error_category" =
      some (MVal.s "unexpected_error") := by
  decide
